import Mathlib

/-!
Verification development for the Thalamus schema-analysis service
(src/thalamus).  The Python workflow is shallowly embedded: JSON values
(the shapes the LLM stages exchange) become the inductive type JVal,
the LangGraph workflow state (agents/state.py, initialised in
agents/schema_analyzer.py) becomes the structure WState, and each
fallible Python operation (attribute access, key indexing, numeric
comparison) returns Except String, modelling the exception it can raise.
External LLM calls are abstracted into an LLMOutcome parameter: the
stage code under verification is everything around the call.
-/

namespace Thalamus

/-- A JSON value as produced by json.loads and passed between the
workflow stages.  Python ints and floats are both embedded as rationals;
dicts are insertion-ordered association lists, as in CPython. -/
inductive JVal where
  | null : JVal
  | bool (b : Bool) : JVal
  | num (q : ℚ) : JVal
  | str (s : String) : JVal
  | arr (xs : List JVal) : JVal
  | obj (kvs : List (String × JVal)) : JVal

/-- Python truthiness (bool(x)) for JSON values: None, False, 0, "",
empty list and empty dict are falsy, everything else truthy. -/
def JVal.truthy : JVal → Bool
  | .null => false
  | .bool b => b
  | .num q => !(q == 0)
  | .str s => !(s == "")
  | .arr xs => !xs.isEmpty
  | .obj kvs => !kvs.isEmpty

/-- First binding of a key in an ordered association list (CPython dicts
hold each key once, so first-match lookup is dict lookup). -/
def alookup : List (String × JVal) → String → Option JVal
  | [], _ => none
  | (k', v') :: rest, k => if k' == k then some v' else alookup rest k

/-- Python dict assignment d[k] = v: overwrite in place if the key
exists (keeping its position), else append at the end. -/
def aset : List (String × JVal) → String → JVal → List (String × JVal)
  | [], k, v => [(k, v)]
  | (k', v') :: rest, k, v =>
      if k' == k then (k, v) :: rest else (k', v') :: aset rest k v

/-- Python membership test: k in d. -/
def ahas (kvs : List (String × JVal)) (k : String) : Bool :=
  (alookup kvs k).isSome

/-- Python d.get(k): None when the key is missing; raises AttributeError
when the receiver is not a dict. -/
def pyGet : JVal → String → Except String JVal
  | .obj kvs, k => .ok ((alookup kvs k).getD .null)
  | _, _ => .error "AttributeError: get"

/-- Python d.get(k, default): the default when the key is missing;
raises AttributeError when the receiver is not a dict. -/
def pyGetD : JVal → String → JVal → Except String JVal
  | .obj kvs, k, d => .ok ((alookup kvs k).getD d)
  | _, _, _ => .error "AttributeError: get"

/-- Python d[k]: KeyError when the key is missing, TypeError when the
receiver is not a dict. -/
def pyIndex : JVal → String → Except String JVal
  | .obj kvs, k =>
      match alookup kvs k with
      | some v => .ok v
      | none => .error ("KeyError: " ++ k)
  | _, _ => .error "TypeError: not subscriptable"

/-- Python len(x): defined for the sized JSON values (str, list, dict);
every other runtime type raises TypeError. -/
def pyLen : JVal → Except String Nat
  | .str s => .ok s.length
  | .arr xs => .ok xs.length
  | .obj kvs => .ok kvs.length
  | _ => .error "TypeError: no len"

/-- Python x >= q for a numeric literal q: int/float compare by value,
bool counts as 0/1, every other operand raises TypeError. -/
def pyGeNum (x : JVal) (q : ℚ) : Except String Bool :=
  match x with
  | .num a => .ok (decide (q ≤ a))
  | .bool b => .ok (decide (q ≤ (if b then (1 : ℚ) else 0)))
  | _ => .error "TypeError: unorderable"

/-- Python x == "lit" for a string literal: string equality when x is a
string, False for every other runtime type (no coercion to str). -/
def pyEqStrLit (x : JVal) (t : String) : Bool :=
  match x with
  | .str u => u == t
  | _ => false

/-- Python == between two arbitrary JSON values: numbers (and bools,
which are ints in Python) compare by value, lists elementwise; dicts are
compared pairwise in insertion order here, a harmless refinement of
CPython's order-insensitive dict equality given that the only use site
(find_entity_by_id) compares integer entity ids per the data model. -/
def pyEqVal : JVal → JVal → Bool
  | .null, .null => true
  | .bool a, .bool b => a == b
  | .bool a, .num q => (if a then (1 : ℚ) else 0) == q
  | .num q, .bool b => q == (if b then (1 : ℚ) else 0)
  | .num a, .num b => a == b
  | .str a, .str b => a == b
  | .arr [], .arr [] => true
  | .arr (x :: xs), .arr (y :: ys) => pyEqVal x y && pyEqVal (.arr xs) (.arr ys)
  | .obj [], .obj [] => true
  | .obj ((k, v) :: kvs), .obj ((l, w) :: lws) =>
      k == l && pyEqVal v w && pyEqVal (.obj kvs) (.obj lws)
  | _, _ => false

/-- Python str.lower restricted to ASCII, which is all the
transformation tags ever contain. -/
def pyLower (s : String) : String := String.mk (s.data.map Char.toLower)

/-- Python s.replace("underscore", "") on a target-field name: removes
every underscore character. -/
def removeUnderscores (s : String) : String :=
  String.mk (s.data.filter (fun c => !(c == '_')))

/-- Python s[:n] string slicing. -/
def strTake (s : String) (n : Nat) : String := String.mk (s.data.take n)

/-- Requires a Python str, as str.lower() does; anything else raises
AttributeError. -/
def expectStr : JVal → Except String String
  | .str s => .ok s
  | _ => .error "AttributeError: lower"

/-- Python state.get(key, default) on the workflow state dict: the
orchestrator initialises every key, so a field is none only for the
hypothetical absent-key case, where the default applies. -/
def optGetD (o : Option JVal) (d : JVal) : JVal := o.getD d

/-- The incoming schema (models/schema_models.py SchemaInput after
model_dump): the workflow reads hash, name, detected_fields and
sample_data; detected_fields entries stay open JSON records. -/
structure IncomingSchema where
  hash : String
  name : String
  detected_fields : List JVal
  sample_data : List JVal

/-- The wire response dict assembled by prepare_response and
create_error_response in agents/schema_analyzer.py.  Both construction
sites build exactly these eight keys, so the dict is embedded as a
fixed record; validate_response reads and writes no other key. -/
structure Resp where
  action : JVal
  entity_id : JVal
  entity_name : JVal
  source_schema_name : JVal
  similarity_score : JVal
  reasoning : JVal
  canonical_schema : JVal
  field_mappings : JVal

/-- The workflow state of agents/state.py (SchemaAnalysisState), as
initialised by analyze_schema in agents/schema_analyzer.py.  Optional
slots model dict keys that the orchestrator initialises to None
(some JVal.null) and that stages overwrite; final_response mirrors the
key prepare_response adds at runtime. -/
structure WState where
  incoming_schema : IncomingSchema
  existing_entities : List JVal
  field_analysis : Option JVal
  normalization_suggestions : Option JVal
  entity_match_results : Option JVal
  action : Option JVal
  entity_id : Option JVal
  entity_name : Option JVal
  source_schema_name : Option JVal
  similarity_score : Option JVal
  reasoning : Option JVal
  canonical_schema : Option JVal
  field_mappings : Option JVal
  current_step : String
  error : Option String
  processing_history : List String
  final_response : Option Resp

/-- Outcome of one abstracted LLM interaction inside a stage's try
block: exn is an exception from the client call (or a parse failure the
stage does not itself repair); content is the JSON value the stage ends
up holding after its own parsing and repair. -/
inductive LLMOutcome where
  | exn (msg : String) : LLMOutcome
  | content (v : JVal) : LLMOutcome

/-! ## Entity matcher (agents/nodes/entity_matcher.py) -/

/-- Effectful skeleton of build_entity_matching_prompt (lines 125-201):
the prompt text only feeds the abstracted LLM, so the embedding keeps
just the fallible accesses, in source order: the composite-fields hint
(field_analysis.get guarded by truthiness) and, per existing entity,
the name, id and fields lookups interpolated into the prompt. -/
def build_entity_matching_prompt (_incoming : IncomingSchema)
    (entities : List JVal) (field_analysis : JVal) : Except String Unit := do
  let _ ←
    if field_analysis.truthy then pyGetD field_analysis "composite_fields" (.arr [])
    else pure (.arr [])
  entities.forM (fun e => do
    let _ ← pyIndex e "name"
    let _ ← pyIndex e "id"
    let _ ← pyIndex e "fields"
    pure ())

/-- The entity_match_results value stored on the empty-catalogue
short-circuit (entity_matcher.py lines 28-32). -/
def emptyCatalogueResult : JVal :=
  .obj [("best_match", .null),
        ("should_create_new", .bool true),
        ("reason", .str "No existing canonical entities in the system")]

/-- The except-block of match_entities (lines 109-122): records the
error, still forces action to create_new with absent ids, and appends
the failed tag. -/
def matchFailure (s : WState) (msg : String) : WState :=
  { s with error := some ("Entity matching failed: " ++ msg),
           action := some (.str "create_new"),
           entity_id := some .null,
           similarity_score := some .null,
           processing_history := s.processing_history ++ ["entity_matching_failed"] }

/-- Lines 89-98 of match_entities: the threshold decision on the parsed
match_results.  The caller has already stored entity_match_results
(line 86); an error here lands in the except block with that mutation
kept.  Mirrors the Python short-circuit evaluation of
  match_results.get("best_match") and
  match_results["best_match"].get("similarity_score", 0) >= 75. -/
def matchDecide (mr : JVal) (s : WState) : Except String WState := do
  let bm ← pyGet mr "best_match"
  let cond ←
    if bm.truthy then do
      let bm' ← pyIndex mr "best_match"
      let sc ← pyGetD bm' "similarity_score" (.num 0)
      pyGeNum sc 75
    else pure false
  if cond then do
    let bm' ← pyIndex mr "best_match"
    let eid ← pyIndex bm' "entity_id"
    let bm'' ← pyIndex mr "best_match"
    let sc ← pyIndex bm'' "similarity_score"
    pure { s with action := some (.str "map_to_existing"),
                  entity_id := some eid,
                  similarity_score := some sc,
                  processing_history := s.processing_history ++ ["entity_matching_completed"] }
  else
    pure { s with action := some (.str "create_new"),
                  entity_id := some .null,
                  similarity_score := some .null,
                  processing_history := s.processing_history ++ ["entity_matching_completed"] }

/-- match_entities (entity_matcher.py lines 12-122).  The LLM line 62
and the JSON-repair lines 64-83 are abstracted into the LLMOutcome
argument (the repair itself always yields some parsed value or the
default, so content covers every non-raising outcome).  Prompt
construction (lines 37-44) runs before the try block, so its exceptions
escape the function: they surface as Except.error here. -/
def match_entities (llm : LLMOutcome) (s : WState) : Except String WState :=
  if s.existing_entities.isEmpty then
    .ok { s with entity_match_results := some emptyCatalogueResult,
                 processing_history := s.processing_history ++ ["entity_matching_skipped"] }
  else do
    let _ ← build_entity_matching_prompt s.incoming_schema s.existing_entities
              (optGetD s.field_analysis (.obj []))
    match llm with
    | .exn msg => pure (matchFailure s msg)
    | .content mr =>
        let s1 := { s with entity_match_results := some mr }
        match matchDecide mr s1 with
        | .ok s' => pure s'
        | .error msg => pure (matchFailure s1 msg)

/-! ## Schema normalizer (agents/nodes/schema_normalizer.py) -/

/-- find_entity_by_id (lines 99-104): first entity whose id compares
equal (Python ==) to the given id, else an empty placeholder dict. -/
def find_entity_by_id : List JVal → JVal → Except String JVal
  | [], _ => .ok (.obj [])
  | e :: rest, eid => do
      let i ← pyIndex e "id"
      if pyEqVal i eid then pure e else find_entity_by_id rest eid

/-- Effectful skeleton of build_mapping_normalization_prompt (lines
107-155): only the fallible accesses are kept, since the text feeds the
abstracted LLM.  target_entity.get is consulted for name (twice, lines
125 and 139) and fields (twice, lines 126 and 142). -/
def build_mapping_normalization_prompt (_incoming : IncomingSchema)
    (target : JVal) (_field_analysis : JVal) : Except String Unit := do
  let _ ← pyGetD target "name" (.str "Unknown")
  let _ ← pyGetD target "fields" (.arr [])
  let _ ← pyGetD target "name" (.str "Unknown")
  let _ ← pyGetD target "fields" (.arr [])
  pure ()

/-- Effectful skeleton of build_new_entity_normalization_prompt (lines
158-229): the only fallible access is match_results.get("reason", ...)
at line 176. -/
def build_new_entity_normalization_prompt (_incoming : IncomingSchema)
    (_field_analysis : JVal) (match_results : JVal) : Except String Unit := do
  let _ ← pyGetD match_results "reason" (.str "No matching existing entity found")
  pure ()

/-- The except-block of normalize_schema (lines 89-96): records the
error only; no history tag, no other mutation beyond what the try body
already performed. -/
def normFailure (s : WState) (msg : String) : WState :=
  { s with error := some ("Schema normalization failed: " ++ msg) }

/-- Lines 69-87 of normalize_schema given the parsed LLM value:
sequential mutations with the Python order preserved, so that an
exception midway leaves the earlier mutations in place for the except
block.  The success logger at line 84 eagerly evaluates
len(normalization_result["canonical_schema"]["fields"]) inside the try,
after the history append at line 78, so its subscript and len failures
are caught too; the re-subscript of canonical_schema itself repeats the
line-75 access and cannot newly fail. -/
def normTry (nr : JVal) (s0 : WState) : WState :=
  let s := { s0 with normalization_suggestions := some nr }
  match pyIndex nr "entity_name" with
  | .error msg => normFailure s msg
  | .ok en =>
    let s := { s with entity_name := some en }
    match pyIndex nr "source_schema_name" with
    | .error msg => normFailure s msg
    | .ok ssn =>
      let s := { s with source_schema_name := some ssn }
      match pyIndex nr "canonical_schema" with
      | .error msg => normFailure s msg
      | .ok cs =>
        let s := { s with canonical_schema := some cs }
        match pyGetD nr "reasoning" (.str "") with
        | .error msg => normFailure s msg
        | .ok rsn =>
          let s :=
            { s with reasoning := some rsn,
                     processing_history := s.processing_history ++ ["normalization_completed"] }
          match pyIndex cs "fields" with
          | .error msg => normFailure s msg
          | .ok flds =>
            match pyLen flds with
            | .error msg => normFailure s msg
            | .ok _ => s

/-- normalize_schema (schema_normalizer.py lines 12-96).  The branch on
state.get("action") == "map_to_existing" selects which prompt is built
(lines 30-47); prompt construction runs before the try block, so its
exceptions escape as Except.error.  The LLM call and json.loads are
abstracted into the LLMOutcome argument (this stage has no JSON-repair
path: a parse failure is an exception, hence exn). -/
def normalize_schema (llm : LLMOutcome) (s : WState) : Except String WState := do
  let _ ←
    if pyEqStrLit (optGetD s.action .null) "map_to_existing" then do
      let target ← find_entity_by_id s.existing_entities (optGetD s.entity_id .null)
      build_mapping_normalization_prompt s.incoming_schema target
        (optGetD s.field_analysis (.obj []))
    else
      build_new_entity_normalization_prompt s.incoming_schema
        (optGetD s.field_analysis (.obj []))
        (optGetD s.entity_match_results (.obj []))
  match llm with
  | .exn msg => pure (normFailure s msg)
  | .content nr => pure (normTry nr s)

/-! ## Mapping generator (agents/nodes/mapping_generator.py) -/

/-- The six transformation tags accepted by the schema
(VALID_TRANSFORMATIONS, lines 261-263). -/
def validTransformations : List String :=
  ["direct", "formula", "split", "combine", "format_conversion", "constant"]

/-- TRANSFORMATION_MAPPING (lines 266-278): synonym table applied to
lower-cased tags outside the valid set. -/
def transformationTable : List (String × String) :=
  [("extract", "formula"),
   ("uppercase", "formula"),
   ("lowercase", "formula"),
   ("trim", "formula"),
   ("unix_to_datetime", "format_conversion"),
   ("date_format", "format_conversion"),
   ("parse", "formula"),
   ("concat", "combine"),
   ("concatenate", "combine"),
   ("merge", "combine"),
   ("join", "combine")]

/-- Dict .get on the synonym table (string-to-string). -/
def alookup' : List (String × String) → String → Option String
  | [], _ => none
  | (k', v') :: rest, k => if k' == k then some v' else alookup' rest k

/-- The in-place dict mutations of validate_mappings on one retained
mapping (lines 295-310), given the already-normalized tag t: store the
tag, default confidence when the key is absent, default the formula for
direct-with-source and constant mappings when absent or falsy, default
source_field when the key is absent.  Performed in source order, so
unrecognized keys pass through untouched. -/
def repairChain (kvs : List (String × JVal)) (t : String) : List (String × JVal) :=
  let kvs1 := aset kvs "transformation" (.str t)
  let kvs2 := if ahas kvs1 "confidence" then kvs1
              else aset kvs1 "confidence" (.num (8 / 10))
  let kvs3 :=
    if !(ahas kvs2 "jsonata_formula")
       || !((alookup kvs2 "jsonata_formula").getD .null).truthy then
      if t == "direct" && ((alookup kvs2 "source_field").getD .null).truthy then
        aset kvs2 "jsonata_formula" ((alookup kvs2 "source_field").getD .null)
      else if t == "constant" then
        aset kvs2 "jsonata_formula" (.str "\"\"")
      else kvs2
    else kvs2
  if ahas kvs3 "source_field" then kvs3
  else aset kvs3 "source_field" (.str "")

/-- One loop iteration of validate_mappings (lines 280-311) on a
candidate mapping: none means the entry is skipped (continue), an error
is an exception escaping the whole pass (e.g. .lower() on a non-str). -/
def validateOneMapping (m : JVal) : Except String (Option JVal) :=
  match m with
  | .obj kvs =>
      if !((alookup kvs "target_field").getD .null).truthy then .ok none
      else do
        let traw := (alookup kvs "transformation").getD (.str "direct")
        let t0 ← expectStr traw
        let tl := pyLower t0
        let t := if validTransformations.contains tl then tl
                 else (alookup' transformationTable tl).getD "formula"
        pure (some (.obj (repairChain kvs t)))
  | _ => .error "AttributeError: get"

/-- validate_mappings (lines 256-313): per-entry validation and repair,
keeping source order of the retained entries. -/
def validate_mappings (ms : List JVal) : Except String (List JVal) := do
  let outs ← ms.mapM validateOneMapping
  pure (outs.filterMap id)

/-- generate_fallback_mappings (lines 316-361).  Only the names matter:
branch (a) emits the target name itself, branch (b) the
underscore-stripped name, and the comprehension's source_map values are
never read, so the source side reduces to its list of names.  Per the
data model, field names are strs; a non-str name raises here (the
Python code would raise at the replace call or emit a degenerate
mapping, neither reachable for validated fields). -/
def generate_fallback_mappings (source_fields target_fields : List JVal) :
    Except String (List JVal) := do
  let sourceNames ← source_fields.mapM (fun f => do
    let n ← pyIndex f "name"
    expectStr n)
  target_fields.mapM (fun tf => do
    let n ← pyIndex tf "name"
    let t ← expectStr n
    if sourceNames.contains t then
      pure (JVal.obj
        [("source_field", .str t),
         ("target_field", .str t),
         ("transformation", .str "direct"),
         ("jsonata_formula", .str t),
         ("confidence", .num (9 / 10)),
         ("explanation", .str "Direct field name match")])
    else if sourceNames.contains (removeUnderscores t) then
      pure (JVal.obj
        [("source_field", .str (removeUnderscores t)),
         ("target_field", .str t),
         ("transformation", .str "direct"),
         ("jsonata_formula", .str (removeUnderscores t)),
         ("confidence", .num (7 / 10)),
         ("explanation", .str "Field name match with underscore variation")])
    else
      pure (JVal.obj
        [("source_field", .str ""),
         ("target_field", .str t),
         ("transformation", .str "constant"),
         ("jsonata_formula", .str "null"),
         ("confidence", .num (5 / 10)),
         ("explanation", .str "No matching source field found")]))

/-! ## Response assembly (agents/schema_analyzer.py) -/

/-- The per-detected-field FieldDefinition synthesis shared by
validate_response (lines 113-122) and create_error_response (lines
165-171): name and type are required lookups, required defaults to
False. -/
def detectedFieldDefs (fields : List JVal) : Except String (List JVal) :=
  fields.mapM (fun f => do
    let n ← pyIndex f "name"
    let t ← pyIndex f "type"
    let req ← pyGetD f "required" (.bool false)
    pure (JVal.obj [("name", n), ("type", t), ("required", req)]))

/-- The canonical_schema repair of validate_response (lines 106-122):
keep a candidate that is truthy with truthy fields; otherwise prefer a
truthy normalization_suggestions.canonical_schema verbatim; otherwise
synthesize one FieldDefinition per detected field.  The short-circuit
of the Python or-condition is preserved: the fields lookup (and hence
its AttributeError on a non-dict candidate) only happens when the
candidate is truthy. -/
def csRepair (cs : JVal) (s : WState) : Except String JVal := do
  let enter ←
    if cs.truthy then do
      let flds ← pyGet cs "fields"
      pure (!flds.truthy)
    else pure true
  if enter then do
    let nscs ← pyGet (optGetD s.normalization_suggestions (.obj [])) "canonical_schema"
    if nscs.truthy then pure nscs
    else do
      let flds ← detectedFieldDefs s.incoming_schema.detected_fields
      pure (.obj [("fields", .arr flds)])
  else pure cs

/-- One loop iteration of the mapping re-validation in
validate_response (lines 130-141): keep dict entries with a truthy
target_field, rebuilding each as exactly the six declared keys with the
stated defaults (extra keys are dropped by this rebuild). -/
def validateRespMapping (m : JVal) : Option JVal :=
  match m with
  | .obj kvs =>
      let tf := (alookup kvs "target_field").getD .null
      if tf.truthy then
        some (.obj
          [("source_field", (alookup kvs "source_field").getD (.str "")),
           ("target_field", tf),
           ("transformation", (alookup kvs "transformation").getD (.str "direct")),
           ("jsonata_formula", (alookup kvs "jsonata_formula").getD (.str "")),
           ("confidence", (alookup kvs "confidence").getD (.num (8 / 10))),
           ("explanation", (alookup kvs "explanation").getD (.str ""))])
      else none
  | _ => none

/-- The field_mappings phase of validate_response (lines 124-143):
coerce a non-list to the empty list, then filter and rebuild each
entry, preserving order. -/
def fmRepair (fm : JVal) : List JVal :=
  match fm with
  | .arr xs => xs.filterMap validateRespMapping
  | _ => []

/-- The default applied by validate_response when a field is falsy
(lines 146-153). -/
def defaultIfFalsy (v d : JVal) : JVal := if v.truthy then v else d

/-- validate_response (schema_analyzer.py lines 103-155).  The phases
touch pairwise distinct keys of the response dict, so the sequential
mutations are embedded as independent record updates. -/
def validate_response (r : Resp) (s : WState) : Except String Resp := do
  let cs ← csRepair r.canonical_schema s
  pure { r with
    canonical_schema := cs,
    field_mappings := .arr (fmRepair r.field_mappings),
    source_schema_name :=
      defaultIfFalsy r.source_schema_name
        (.str ("source_" ++ strTake s.incoming_schema.hash 8)),
    entity_name := defaultIfFalsy r.entity_name (.str "DataEntity"),
    reasoning :=
      defaultIfFalsy r.reasoning
        (.str "Schema analyzed through multi-step agent pipeline") }

/-- create_error_response (lines 158-194): the minimal synthetic
response built from the detected fields; its own field accesses can
raise, escaping the caller's except block. -/
def create_error_response (s : WState) (err : String) : Except String Resp := do
  let canonical_fields ← detectedFieldDefs s.incoming_schema.detected_fields
  let fm ← s.incoming_schema.detected_fields.mapM (fun f => do
    let n ← pyIndex f "name"
    pure (JVal.obj
      [("source_field", n),
       ("target_field", n),
       ("transformation", .str "direct"),
       ("jsonata_formula", n),
       ("confidence", .num (5 / 10)),
       ("explanation", .str "Fallback direct mapping due to processing error")]))
  pure { action := .str "create_new",
         entity_id := .null,
         entity_name := .str "DataEntity",
         source_schema_name := .str s.incoming_schema.name,
         similarity_score := .null,
         reasoning := .str ("Fallback response due to error: " ++ err),
         canonical_schema := .obj [("fields", .arr canonical_fields)],
         field_mappings := .arr fm }

/-- The candidate response prepare_response builds from the state
(schema_analyzer.py lines 67-76), with the stated dict-get defaults. -/
def prepRespInput (s : WState) : Resp :=
  { action := optGetD s.action (.str "create_new"),
    entity_id := optGetD s.entity_id .null,
    entity_name := optGetD s.entity_name (.str "UnknownEntity"),
    source_schema_name := optGetD s.source_schema_name (.str s.incoming_schema.name),
    similarity_score := optGetD s.similarity_score .null,
    reasoning := optGetD s.reasoning (.str ""),
    canonical_schema := optGetD s.canonical_schema (.obj [("fields", .arr [])]),
    field_mappings := optGetD s.field_mappings (.arr []) }

/-- prepare_response (schema_analyzer.py lines 54-100): build the
candidate response from the state with the stated defaults, run it
through validate_response; on an exception fall back to
create_error_response (whose own failure escapes, as in the source,
where it would propagate out of the except block). -/
def prepare_response (s : WState) : Except String WState := do
  let response : Resp := prepRespInput s
  match validate_response response s with
  | .ok r =>
      pure { s with final_response := some r,
                    processing_history := s.processing_history ++ ["response_prepared"] }
  | .error msg => do
      let er ← create_error_response s msg
      pure { s with final_response := some er }

/-! ## Claim-side definitions

These follow the wording of the specification rather than the source,
and are compared with the source embedding by the theorems below. -/

/-- Per the spec's decision rule: the similarity_score of a present
best_match, when it is a number. -/
def bestMatchScore (mr : JVal) : Option ℚ :=
  match mr with
  | .obj kvs =>
      match alookup kvs "best_match" with
      | some (.obj bkvs) =>
          match alookup bkvs "similarity_score" with
          | some (.num q) => some q
          | _ => none
      | _ => none
  | _ => none

/-- An attribute of a present best_match object. -/
def bestMatchAttr (mr : JVal) (k : String) : Option JVal :=
  match mr with
  | .obj kvs =>
      match alookup kvs "best_match" with
      | some (.obj bkvs) => alookup bkvs k
      | _ => none
  | _ => none

/-- The spec's threshold condition: best_match is present and its
similarity_score is at least 75 (boundary inclusive). -/
def bestMatchQualifies (mr : JVal) : Bool :=
  match bestMatchScore mr with
  | some q => decide (75 ≤ q)
  | none => false

/-- The spec's three-tier fallback rule for one target field name given
the set of source field names: (a) exact name match yields a direct
self-mapping at confidence 0.9; (b) otherwise a source name equal to
the target name with underscores removed yields a direct mapping from
that source name at confidence 0.7; (c) otherwise a constant mapping
with empty source_field, the literal formula null, confidence 0.5 and
the stated explanation.  The explanation texts of tiers (a) and (b) are
carried over from the source since the spec does not fix them. -/
def specFallbackOne (sourceNames : List String) (t : String) : JVal :=
  if sourceNames.contains t then
    .obj [("source_field", .str t),
          ("target_field", .str t),
          ("transformation", .str "direct"),
          ("jsonata_formula", .str t),
          ("confidence", .num (9 / 10)),
          ("explanation", .str "Direct field name match")]
  else if sourceNames.contains (removeUnderscores t) then
    .obj [("source_field", .str (removeUnderscores t)),
          ("target_field", .str t),
          ("transformation", .str "direct"),
          ("jsonata_formula", .str (removeUnderscores t)),
          ("confidence", .num (7 / 10)),
          ("explanation", .str "Field name match with underscore variation")]
  else
    .obj [("source_field", .str ""),
          ("target_field", .str t),
          ("transformation", .str "constant"),
          ("jsonata_formula", .str "null"),
          ("confidence", .num (5 / 10)),
          ("explanation", .str "No matching source field found")]

/-- Name extraction for a list of field definitions, as the fallback
generator consumes them. -/
def extractNames (fs : List JVal) : Except String (List String) :=
  fs.mapM (fun f => do
    let n ← pyIndex f "name"
    expectStr n)

/-- The spec's retention test for candidate mappings: the entry carries
a non-empty (truthy) target_field. -/
def specKeepMapping (m : JVal) : Bool :=
  match m with
  | .obj kvs => ((alookup kvs "target_field").getD .null).truthy
  | _ => false

/-- The spec's tag normalization: lower-case, keep a member of the
six-tag set, otherwise remap through the synonym table (which the spec
spells out with exactly the contents of transformationTable), and
anything else becomes formula. -/
def specNormTag (t : String) : String :=
  let l := pyLower t
  if validTransformations.contains l then l
  else (alookup' transformationTable l).getD "formula"

/-- The spec's description of one retained mapping after the Mapping
Generator's validation pass, relating the original entry to the
repaired one key by key. -/
def specRepairedRel (m m' : JVal) : Prop :=
  ∃ kvs kvs' t0, m = .obj kvs ∧ m' = .obj kvs'
    ∧ ((alookup kvs "target_field").getD .null).truthy = true
    ∧ alookup kvs' "target_field" = alookup kvs "target_field"
    ∧ (alookup kvs "transformation").getD (.str "direct") = .str t0
    ∧ alookup kvs' "transformation" = some (.str (specNormTag t0))
    ∧ validTransformations.contains (specNormTag t0) = true
    ∧ (if ahas kvs "confidence" then
         alookup kvs' "confidence" = alookup kvs "confidence"
       else alookup kvs' "confidence" = some (.num (8 / 10)))
    ∧ (if !(ahas kvs "jsonata_formula")
          || !((alookup kvs "jsonata_formula").getD .null).truthy then
         (if specNormTag t0 == "direct"
             && ((alookup kvs "source_field").getD .null).truthy then
            alookup kvs' "jsonata_formula" = some ((alookup kvs "source_field").getD .null)
          else if specNormTag t0 == "constant" then
            alookup kvs' "jsonata_formula" = some (.str "\"\"")
          else alookup kvs' "jsonata_formula" = alookup kvs "jsonata_formula")
       else alookup kvs' "jsonata_formula" = alookup kvs "jsonata_formula")
    ∧ (if ahas kvs "source_field" then
         alookup kvs' "source_field" = alookup kvs "source_field"
       else alookup kvs' "source_field" = some (.str ""))

/-- The spec's description of the response-assembly mapping pass: keep
exactly the dict entries with a truthy target_field, in order, and
rebuild each with the six attributes, defaulting source_field to empty,
transformation to direct, jsonata_formula to empty, confidence to 0.8
and explanation to empty. -/
def specKeptMappings (fm : JVal) : List JVal :=
  (match fm with | .arr xs => xs | _ => []).filterMap (fun (m : JVal) =>
    match m with
    | .obj kvs =>
        if ((alookup kvs "target_field").getD .null).truthy then
          some (.obj
            [("source_field", (alookup kvs "source_field").getD (.str "")),
             ("target_field", (alookup kvs "target_field").getD .null),
             ("transformation", (alookup kvs "transformation").getD (.str "direct")),
             ("jsonata_formula", (alookup kvs "jsonata_formula").getD (.str "")),
             ("confidence", (alookup kvs "confidence").getD (.num (8 / 10))),
             ("explanation", (alookup kvs "explanation").getD (.str ""))])
        else none
    | _ => none)

/-- Key lookup on a JSON object value, none otherwise. -/
def alookupJ (v : JVal) (k : String) : Option JVal :=
  match v with
  | .obj kvs => alookup kvs k
  | _ => none

/-- A detected-field entry carries name and type keys (guaranteed by
the FieldDefinition wire model). -/
def fieldDefOk (f : JVal) : Bool :=
  match f with
  | .obj kvs => (alookup kvs "name").isSome && (alookup kvs "type").isSome
  | _ => false

/-- A canonical-schema candidate is benign: when truthy it is an
object, and a truthy fields attribute of it is a list. -/
def csCandidateOk (c : JVal) : Bool :=
  !c.truthy ||
    (match c with
     | .obj kvs =>
         match alookup kvs "fields" with
         | some v => !v.truthy || (match v with | .arr _ => true | _ => false)
         | none => true
     | _ => false)

/-- The normalization_suggestions.canonical_schema value the repair
pass consults; null when the suggestions are not an object carrying
one. -/
def nsCsVal (s : WState) : JVal :=
  match optGetD s.normalization_suggestions (.obj []) with
  | .obj kvs => (alookup kvs "canonical_schema").getD .null
  | _ => .null

/-- normalization_suggestions.canonical_schema, when truthy, is an
object whose fields attribute is a non-empty list (the shape the
non-empty-fields guarantee of the spec needs). -/
def nsCsStrongOk (s : WState) : Bool :=
  match optGetD s.normalization_suggestions (.obj []) with
  | .obj kvs =>
      match alookup kvs "canonical_schema" with
      | some v =>
          !v.truthy ||
            (match v with
             | .obj vkvs =>
                 match alookup vkvs "fields" with
                 | some (.arr fs) => !fs.isEmpty
                 | _ => false
             | _ => false)
      | none => true
  | _ => true

/-- normalization_suggestions.canonical_schema, when truthy, is at
least an object (the weaker shape condition under which the repair pass
is idempotent). -/
def nsBenign (s : WState) : Bool :=
  match optGetD s.normalization_suggestions (.obj []) with
  | .obj kvs =>
      match alookup kvs "canonical_schema" with
      | some v => !v.truthy || (match v with | .obj _ => true | _ => false)
      | none => true
  | _ => true

/-- The repair pass keeps the candidate canonical schema exactly when
the candidate is truthy with a truthy fields attribute. -/
def candKept (c : JVal) : Bool :=
  c.truthy &&
    (match c with
     | .obj kvs => ((alookup kvs "fields").getD .null).truthy
     | _ => false)

/-! ## Concrete sample inputs for witnesses and counterexamples -/

/-- A well-formed detected field, as the FieldDefinition model emits. -/
def sampleField : JVal :=
  .obj [("name", .str "email"), ("type", .str "string"), ("required", .bool false)]

/-- A small incoming schema. -/
def sampleIncoming : IncomingSchema :=
  { hash := "deadbeefcafe1234",
    name := "contacts_import",
    detected_fields := [sampleField],
    sample_data := [] }

/-- The workflow state exactly as analyze_schema initialises it
(schema_analyzer.py lines 217-234): every progressive slot present with
value None, empty history. -/
def baseState : WState :=
  { incoming_schema := sampleIncoming,
    existing_entities := [],
    field_analysis := some .null,
    normalization_suggestions := some .null,
    entity_match_results := some .null,
    action := some .null,
    entity_id := some .null,
    entity_name := some .null,
    source_schema_name := some .null,
    similarity_score := some .null,
    reasoning := some .null,
    canonical_schema := some .null,
    field_mappings := some .null,
    current_step := "starting",
    error := none,
    processing_history := [],
    final_response := none }

/-- A well-formed existing canonical entity. -/
def sampleEntity : JVal :=
  .obj [("id", .num 1), ("name", .str "Customer"), ("fields", .arr [sampleField])]

/-- State with a non-empty catalogue of well-formed entities. -/
def matchState : WState := { baseState with existing_entities := [sampleEntity] }

/-- State whose catalogue contains an entity lacking the name/id/fields
keys, so that prompt construction raises before the try block. -/
def badEntityState : WState := { baseState with existing_entities := [.obj []] }

/-- A parsed match result whose best_match scores exactly 75 while the
LLM's boolean asks for a new entity. -/
def mr75 : JVal :=
  .obj [("best_match", .obj [("entity_id", .num 1), ("similarity_score", .num 75)]),
        ("should_create_new", .bool true)]

/-- A parsed match result scoring 74, one under the threshold, with the
boolean asking to map. -/
def mr74 : JVal :=
  .obj [("best_match", .obj [("entity_id", .num 1), ("similarity_score", .num 74)]),
        ("should_create_new", .bool false)]

/-- The state matchDecide produces from mr75: maps to entity 1 at the
inclusive boundary score. -/
def s75 : WState :=
  { matchState with
    action := some (.str "map_to_existing"),
    entity_id := some (.num 1),
    similarity_score := some (.num 75),
    processing_history := matchState.processing_history ++ ["entity_matching_completed"] }

/-- The state matchDecide produces from mr74: one point under the
threshold creates a new entity. -/
def s74 : WState :=
  { matchState with
    action := some (.str "create_new"),
    entity_id := some .null,
    similarity_score := some .null,
    processing_history := matchState.processing_history ++ ["entity_matching_completed"] }

/-- A parsed normalization result whose canonical_schema lacks a fields
entry: the five state mutations and the history append succeed, then
the success logger's fields subscript raises inside the try, so the
stage records the error on the already-mutated state. -/
def nrNoFields : JVal :=
  .obj [("entity_name", .str "E"), ("source_schema_name", .str "S"),
        ("canonical_schema", .obj [])]

/-- State whose normalization suggestions carry a canonical_schema with
an empty fields list: the repair pass adopts it verbatim. -/
def c5State : WState :=
  { baseState with
    normalization_suggestions :=
      some (.obj [("canonical_schema", .obj [("fields", .arr [])])]) }

/-- State whose normalization suggestions carry a truthy non-object
canonical_schema, making the repair pass non-idempotent. -/
def c7State : WState :=
  { baseState with
    normalization_suggestions := some (.obj [("canonical_schema", .str "x")]) }

/-- An all-None candidate response. -/
def nullResp : Resp :=
  { action := .null, entity_id := .null, entity_name := .null,
    source_schema_name := .null, similarity_score := .null, reasoning := .null,
    canonical_schema := .null, field_mappings := .null }

/-- The value validate_response produces from nullResp over c7State:
the suggestions' canonical_schema is adopted verbatim. -/
def c7Mid : Resp :=
  { action := .null, entity_id := .null,
    entity_name := .str "DataEntity",
    source_schema_name := .str "source_deadbeef",
    similarity_score := .null,
    reasoning := .str "Schema analyzed through multi-step agent pipeline",
    canonical_schema := .str "x",
    field_mappings := .arr [] }

/-- A candidate mapping with a synonym transformation tag in mixed
case. -/
def c4MapA : JVal :=
  .obj [("target_field", .str "x"), ("transformation", .str "CONcat")]

/-- What validate_mappings makes of c4MapA: the tag lower-cased and
remapped to combine, confidence and source_field defaulted, the falsy
formula left unset because the mapping is neither direct-with-source
nor constant. -/
def c4OutA : JVal :=
  .obj [("target_field", .str "x"), ("transformation", .str "combine"),
        ("confidence", .num (8 / 10)), ("source_field", .str "")]

/-- A candidate mapping carrying an extra key beyond the six declared
attributes. -/
def extraKeyMapping : JVal :=
  .obj [("target_field", .str "x"), ("extra", .str "y")]

/-- What validate_mappings makes of extraKeyMapping: repaired in place,
the extra key passing through. -/
def extraKeyKept : JVal :=
  .obj [("target_field", .str "x"), ("extra", .str "y"),
        ("transformation", .str "direct"), ("confidence", .num (8 / 10)),
        ("source_field", .str "")]

/-- State whose normalization suggestions are an object without a
canonical_schema entry, so the repair pass synthesizes from the
detected fields. -/
def c6State : WState := { baseState with normalization_suggestions := some (.obj []) }

/-- A candidate response whose mappings mix an entry with an extra key,
a non-dict entry, and an entry without target_field. -/
def c6Resp : Resp :=
  { nullResp with
    field_mappings := .arr [extraKeyMapping, .str "junk",
                            .obj [("source_field", .str "s")]] }

/-- The FieldDefinition synthesized from sampleField. -/
def sampleFieldDef : JVal :=
  .obj [("name", .str "email"), ("type", .str "string"), ("required", .bool false)]

/-- The rebuilt six-attribute mapping validate_response produces from
extraKeyMapping (extra key dropped, defaults filled). -/
def rebuiltX : JVal :=
  .obj [("source_field", .str ""), ("target_field", .str "x"),
        ("transformation", .str "direct"), ("jsonata_formula", .str ""),
        ("confidence", .num (8 / 10)), ("explanation", .str "")]

/-- The response validate_response produces from c6Resp over c6State. -/
def c6Out : Resp :=
  { action := .null, entity_id := .null,
    entity_name := .str "DataEntity",
    source_schema_name := .str "source_deadbeef",
    similarity_score := .null,
    reasoning := .str "Schema analyzed through multi-step agent pipeline",
    canonical_schema := .obj [("fields", .arr [sampleFieldDef])],
    field_mappings := .arr [rebuiltX] }

/-- The response validate_response produces from nullResp over c6State:
a fixed point of the repair pass. -/
def c7Fix : Resp :=
  { action := .null, entity_id := .null,
    entity_name := .str "DataEntity",
    source_schema_name := .str "source_deadbeef",
    similarity_score := .null,
    reasoning := .str "Schema analyzed through multi-step agent pipeline",
    canonical_schema := .obj [("fields", .arr [sampleFieldDef])],
    field_mappings := .arr [] }

/-! ## Helper lemmas -/

theorem alookup_aset_self (kvs : List (String × JVal)) (k : String) (v : JVal) :
    alookup (aset kvs k v) k = some v := by
  induction kvs with
  | nil => simp [aset, alookup]
  | cons hd tl ih =>
      obtain ⟨k', v'⟩ := hd
      by_cases hk : k' == k
      · simp [aset, hk, alookup]
      · simp [aset, hk, alookup, ih]

theorem alookup_aset_ne (kvs : List (String × JVal)) (k k' : String) (v : JVal)
    (h : k ≠ k') : alookup (aset kvs k v) k' = alookup kvs k' := by
  induction kvs with
  | nil =>
      simp [aset, alookup]
      intro hkk
      exact absurd hkk h
  | cons hd tl ih =>
      obtain ⟨k0, v0⟩ := hd
      by_cases hk : k0 == k
      · have hk0 : k0 = k := by simpa using hk
        subst hk0
        simp only [aset, hk, if_true, alookup]
        rw [if_neg (by simpa using h), if_neg (by simpa using h)]
      · simp [aset, hk, alookup, ih]

theorem ahas_aset_ne (kvs : List (String × JVal)) (k k' : String) (v : JVal)
    (h : k ≠ k') : ahas (aset kvs k v) k' = ahas kvs k' := by
  simp [ahas, alookup_aset_ne kvs k k' v h]

theorem exbind_ok {α β : Type} (a : α) (f : α → Except String β) :
    (Except.ok a >>= f) = f a := rfl

theorem exbind_error {α β : Type} (e : String) (f : α → Except String β) :
    ((Except.error e : Except String α) >>= f) = Except.error e := rfl

theorem expure {α : Type} (a : α) : (pure a : Except String α) = Except.ok a := rfl

theorem exmap_ok {α β : Type} (f : α → β) (a : α) :
    (f <$> (Except.ok a : Except String α)) = Except.ok (f a) := rfl

theorem exmap_error {α β : Type} (f : α → β) (e : String) :
    (f <$> (Except.error e : Except String α)) = Except.error e := rfl

/-! ## Claim C2: empty-catalogue short-circuit -/

/-- Claim C2: for every workflow state whose existing_entities list is
empty, match_entities returns without consulting the LLM (the outcome
parameter is arbitrary and absent from the result), stores exactly the
no-entities match result, appends entity_matching_skipped, and leaves
every other state field, in particular action, untouched. -/
theorem spec_C2 (llm : LLMOutcome) (s : WState) (h : s.existing_entities = []) :
    match_entities llm s =
      .ok { s with entity_match_results := some emptyCatalogueResult,
                   processing_history := s.processing_history ++ ["entity_matching_skipped"] } := by
  unfold match_entities
  rw [h]
  rfl

/-- Witness for C2 at the initial workflow state with an empty
catalogue and a failing LLM. -/
theorem spec_C2_witness :
    baseState.existing_entities = [] ∧
    match_entities (.exn "network down") baseState =
      .ok { baseState with
            entity_match_results := some emptyCatalogueResult,
            processing_history := baseState.processing_history ++ ["entity_matching_skipped"] } :=
  ⟨rfl, spec_C2 (.exn "network down") baseState rfl⟩

/-! ## Claim C1: the 75-point threshold decision -/

/-- Claim C1: on the success path of match_entities (the decision of
lines 89-98 completing without exception), action, entity_id and
similarity_score are set to the map_to_existing triple exactly when a
best_match is present with similarity_score at least 75 (boundary
inclusive), and to the create_new triple with absent ids in every other
case, independently of should_create_new (the result is quantified over
every parsed match value); entity_matching_completed is appended in
both cases. -/
theorem spec_C1 (mr : JVal) (s1 s' : WState) (h : matchDecide mr s1 = .ok s') :
    s'.processing_history = s1.processing_history ++ ["entity_matching_completed"]
    ∧ (bestMatchQualifies mr = true →
        s'.action = some (.str "map_to_existing")
        ∧ s'.entity_id = bestMatchAttr mr "entity_id"
        ∧ s'.similarity_score = bestMatchAttr mr "similarity_score")
    ∧ (bestMatchQualifies mr = false →
        s'.action = some (.str "create_new")
        ∧ s'.entity_id = some .null
        ∧ s'.similarity_score = some .null) := by
  cases mr with
  | null => simp [matchDecide, pyGet, exbind_error] at h
  | bool b => simp [matchDecide, pyGet, exbind_error] at h
  | num q => simp [matchDecide, pyGet, exbind_error] at h
  | str t => simp [matchDecide, pyGet, exbind_error] at h
  | arr xs => simp [matchDecide, pyGet, exbind_error] at h
  | obj kvs =>
    cases hbm : alookup kvs "best_match" with
    | none =>
        simp [matchDecide, pyGet, hbm, exbind_ok, exbind_error, expure, JVal.truthy] at h
        subst h
        simp [bestMatchQualifies, bestMatchScore, hbm]
    | some bm =>
      cases hbt : bm.truthy with
      | false =>
          simp [matchDecide, pyGet, hbm, hbt, exbind_ok, exbind_error, expure] at h
          subst h
          have hqf : bestMatchQualifies (JVal.obj kvs) = false := by
            cases bm with
            | obj bkvs =>
                cases bkvs with
                | nil => simp [bestMatchQualifies, bestMatchScore, hbm, alookup]
                | cons hd tl => simp [JVal.truthy, List.isEmpty] at hbt
            | null => simp [bestMatchQualifies, bestMatchScore, hbm]
            | bool b => simp [bestMatchQualifies, bestMatchScore, hbm]
            | num q => simp [bestMatchQualifies, bestMatchScore, hbm]
            | str t => simp [bestMatchQualifies, bestMatchScore, hbm]
            | arr xs => simp [bestMatchQualifies, bestMatchScore, hbm]
          simp [hqf]
      | true =>
        cases bm with
        | obj bkvs =>
          cases hsc : alookup bkvs "similarity_score" with
          | none =>
              simp [matchDecide, pyGet, pyIndex, pyGetD, hbm, hbt, hsc, exbind_ok,
                exbind_error, expure, pyGeNum,
                decide_eq_false (by norm_num : ¬ (75 : ℚ) ≤ 0)] at h
              subst h
              simp [bestMatchQualifies, bestMatchScore, hbm, hsc]
          | some v =>
            cases v with
            | num a =>
                by_cases hq : (75 : ℚ) ≤ a
                · cases heid : alookup bkvs "entity_id" with
                  | none =>
                      simp [matchDecide, pyGet, pyIndex, pyGetD, hbm, hbt, hsc, heid,
                        exbind_ok, exbind_error, expure, exmap_error, pyGeNum,
                        decide_eq_true hq] at h
                  | some eid =>
                      simp [matchDecide, pyGet, pyIndex, pyGetD, hbm, hbt, hsc, heid,
                        exbind_ok, exbind_error, expure, exmap_ok, pyGeNum,
                        decide_eq_true hq] at h
                      subst h
                      have hqt : bestMatchQualifies (JVal.obj kvs) = true := by
                        simp [bestMatchQualifies, bestMatchScore, hbm, hsc, hq]
                      simp [hqt, bestMatchAttr, hbm, heid, hsc]
                · simp [matchDecide, pyGet, pyIndex, pyGetD, hbm, hbt, hsc,
                    exbind_ok, exbind_error, expure, pyGeNum, decide_eq_false hq] at h
                  subst h
                  simp [bestMatchQualifies, bestMatchScore, hbm, hsc, hq]
            | bool b =>
                cases b with
                | false =>
                    simp [matchDecide, pyGet, pyIndex, pyGetD, hbm, hbt, hsc, exbind_ok,
                      exbind_error, expure, pyGeNum,
                      decide_eq_false (by norm_num : ¬ (75 : ℚ) ≤ 0)] at h
                    subst h
                    simp [bestMatchQualifies, bestMatchScore, hbm, hsc]
                | true =>
                    simp [matchDecide, pyGet, pyIndex, pyGetD, hbm, hbt, hsc, exbind_ok,
                      exbind_error, expure, pyGeNum,
                      decide_eq_false (by norm_num : ¬ (75 : ℚ) ≤ 1)] at h
                    subst h
                    simp [bestMatchQualifies, bestMatchScore, hbm, hsc]
            | null =>
                simp [matchDecide, pyGet, pyIndex, pyGetD, hbm, hbt, hsc, exbind_ok,
                  exbind_error, expure, pyGeNum] at h
            | str t =>
                simp [matchDecide, pyGet, pyIndex, pyGetD, hbm, hbt, hsc, exbind_ok,
                  exbind_error, expure, pyGeNum] at h
            | arr xs =>
                simp [matchDecide, pyGet, pyIndex, pyGetD, hbm, hbt, hsc, exbind_ok,
                  exbind_error, expure, pyGeNum] at h
            | obj okvs =>
                simp [matchDecide, pyGet, pyIndex, pyGetD, hbm, hbt, hsc, exbind_ok,
                  exbind_error, expure, pyGeNum] at h
        | null => simp [JVal.truthy] at hbt
        | bool b =>
            simp [matchDecide, pyGet, pyIndex, pyGetD, hbm, hbt, exbind_ok,
              exbind_error, expure, pyGeNum] at h
        | num q =>
            simp [matchDecide, pyGet, pyIndex, pyGetD, hbm, hbt, exbind_ok,
              exbind_error, expure] at h
        | str t =>
            simp [matchDecide, pyGet, pyIndex, pyGetD, hbm, hbt, exbind_ok,
              exbind_error, expure] at h
        | arr xs =>
            simp [matchDecide, pyGet, pyIndex, pyGetD, hbm, hbt, exbind_ok,
              exbind_error, expure] at h

/-- Witness for C1 at both sides of the boundary: a best_match scoring
exactly 75 maps (even though should_create_new was true), a best_match
scoring 74 creates new (even though should_create_new was false). -/
theorem spec_C1_witness :
    matchDecide mr75 matchState = .ok s75
    ∧ matchDecide mr74 matchState = .ok s74
    ∧ bestMatchQualifies mr75 = true
    ∧ bestMatchQualifies mr74 = false
    ∧ (bestMatchQualifies mr75 = true →
        s75.action = some (.str "map_to_existing")
        ∧ s75.entity_id = bestMatchAttr mr75 "entity_id"
        ∧ s75.similarity_score = bestMatchAttr mr75 "similarity_score")
    ∧ (bestMatchQualifies mr74 = false →
        s74.action = some (.str "create_new")
        ∧ s74.entity_id = some .null
        ∧ s74.similarity_score = some .null) :=
  ⟨rfl, rfl, rfl, rfl,
   (spec_C1 mr75 matchState s75 rfl).2.1,
   (spec_C1 mr74 matchState s74 rfl).2.2⟩

/-! ## Claim C8: exception handling in entity matching -/

/-- Counterexample to C8 as stated: with a non-empty catalogue whose
entity lacks the name key, an exception is raised during entity
matching after the non-empty-catalogue check (KeyError while building
the prompt, which happens before the try block), and match_entities
does not return any state at all, let alone one carrying the claimed
error/action fields — the exception propagates. -/
theorem spec_C8_counterexample :
    badEntityState.existing_entities ≠ []
    ∧ match_entities (.exn "boom") badEntityState = .error "KeyError: name"
    ∧ ∀ s' : WState, match_entities (.exn "boom") badEntityState ≠ .ok s' := by
  have h2 : match_entities (.exn "boom") badEntityState = .error "KeyError: name" := rfl
  refine ⟨?_, h2, fun s' hc => ?_⟩
  · simp [badEntityState, baseState]
  · rw [h2] at hc
    exact Except.noConfusion hc

/-- Claim C8 amended: whenever an exception arises inside the try block
of match_entities — the LLM invocation raising, or the decision on the
parsed result raising — the stage returns a state with
error = "Entity matching failed: cause", action = create_new, absent
entity_id and similarity_score, and entity_matching_failed appended;
exceptions between the catalogue check and the try block (prompt
construction) instead propagate, as the counterexample shows. -/
theorem spec_C8_amended (s : WState) (hne : s.existing_entities.isEmpty = false)
    (hp : build_entity_matching_prompt s.incoming_schema s.existing_entities
            (optGetD s.field_analysis (.obj [])) = .ok ()) :
    (∀ msg, match_entities (.exn msg) s =
       .ok { s with error := some ("Entity matching failed: " ++ msg),
                    action := some (.str "create_new"),
                    entity_id := some .null,
                    similarity_score := some .null,
                    processing_history := s.processing_history ++ ["entity_matching_failed"] })
    ∧ (∀ mr msg,
         matchDecide mr { s with entity_match_results := some mr } = .error msg →
         match_entities (.content mr) s =
           .ok { s with entity_match_results := some mr,
                        error := some ("Entity matching failed: " ++ msg),
                        action := some (.str "create_new"),
                        entity_id := some .null,
                        similarity_score := some .null,
                        processing_history := s.processing_history ++ ["entity_matching_failed"] }) := by
  constructor
  · intro msg
    simp [match_entities, hne, hp, exbind_ok, expure, matchFailure]
  · intro mr msg hd
    simp [match_entities, hne, hp, exbind_ok, expure, hd, matchFailure]

/-- Witness for the amended C8: a raising LLM call, and a parsed value
on which the decision raises (a JSON array has no get attribute); both
produce the described failure state on a well-formed catalogue. -/
theorem spec_C8_witness :
    match_entities (.exn "timeout") matchState =
      .ok { matchState with
            error := some ("Entity matching failed: " ++ "timeout"),
            action := some (.str "create_new"),
            entity_id := some .null,
            similarity_score := some .null,
            processing_history := matchState.processing_history ++ ["entity_matching_failed"] }
    ∧ match_entities (.content (.arr [])) matchState =
        .ok { matchState with
              entity_match_results := some (.arr []),
              error := some ("Entity matching failed: " ++ "AttributeError: get"),
              action := some (.str "create_new"),
              entity_id := some .null,
              similarity_score := some .null,
              processing_history := matchState.processing_history ++ ["entity_matching_failed"] } :=
  ⟨(spec_C8_amended matchState rfl rfl).1 "timeout",
   (spec_C8_amended matchState rfl rfl).2 (.arr []) "AttributeError: get" rfl⟩

/-! ## Claim C9: absent action takes the create-new branch -/

theorem normTry_action_update (nr : JVal) (s : WState) (a : Option JVal) :
    normTry nr { s with action := a } = { normTry nr s with action := a } := by
  unfold normTry normFailure
  cases pyIndex nr "entity_name" with
  | error e => rfl
  | ok en =>
    cases pyIndex nr "source_schema_name" with
    | error e => rfl
    | ok ssn =>
      cases pyIndex nr "canonical_schema" with
      | error e => rfl
      | ok cs =>
        cases pyGetD nr "reasoning" (.str "") with
        | error e => rfl
        | ok rsn =>
          cases hfe : pyIndex cs "fields" with
          | error e => simp only [hfe]
          | ok flds =>
              cases hlen : pyLen flds <;> simp only [hfe, hlen]

theorem normTry_preserves_action (nr : JVal) (s : WState) :
    (normTry nr s).action = s.action := by
  unfold normTry normFailure
  cases pyIndex nr "entity_name" with
  | error e => rfl
  | ok en =>
    cases pyIndex nr "source_schema_name" with
    | error e => rfl
    | ok ssn =>
      cases pyIndex nr "canonical_schema" with
      | error e => rfl
      | ok cs =>
        cases pyGetD nr "reasoning" (.str "") with
        | error e => rfl
        | ok rsn =>
          cases hfe : pyIndex cs "fields" with
          | error e => simp only [hfe]
          | ok flds =>
              cases hlen : pyLen flds <;> simp only [hfe, hlen]

theorem wstate_action_eta (w : WState) (a : Option JVal) (h : w.action = a) :
    ({ w with action := a } : WState) = w := by
  cases w
  cases h
  rfl

theorem wstate_update_action_eta (w : WState) (a b : Option JVal) (h : w.action = b) :
    ({ { w with action := a } with action := b } : WState) = w := by
  cases w
  cases h
  rfl

/-- Claim C9: when the state's action is absent (None, as the entity
matcher's empty-catalogue path leaves it), normalize_schema fails the
map_to_existing equality test, so it builds the new-entity
normalization prompt, and its whole behavior coincides with that under
action = create_new up to the untouched action field itself. -/
theorem spec_C9 (llm : LLMOutcome) (s : WState) (h : optGetD s.action .null = .null) :
    pyEqStrLit (optGetD s.action .null) "map_to_existing" = false
    ∧ normalize_schema llm s =
        (normalize_schema llm { s with action := some (.str "create_new") }).map
          (fun s' => { s' with action := s.action }) := by
  have hb : pyEqStrLit (optGetD s.action .null) "map_to_existing" = false := by
    rw [h]; rfl
  refine ⟨hb, ?_⟩
  unfold normalize_schema
  simp only [hb, Bool.false_eq_true, if_false]
  have hb2 : pyEqStrLit (optGetD (({ s with action := some (.str "create_new") } : WState)).action .null)
      "map_to_existing" = false := rfl
  simp only [hb2, Bool.false_eq_true, if_false]
  cases hp : build_new_entity_normalization_prompt s.incoming_schema
      (optGetD s.field_analysis (.obj []))
      (optGetD s.entity_match_results (.obj [])) with
  | error e => simp [hp, exbind_error, Except.map]
  | ok u =>
      cases u
      simp only [hp, exbind_ok]
      cases llm with
      | exn msg =>
          simp only [expure, Except.map]
          rfl
      | content nr =>
          have h1 : normTry nr ({ s with action := some (.str "create_new") } : WState)
              = { normTry nr s with action := some (.str "create_new") } :=
            normTry_action_update nr s _
          simp only [expure, Except.map, h1]
          congr 1
          exact (wstate_update_action_eta (normTry nr s) (some (.str "create_new")) s.action
            (normTry_preserves_action nr s)).symm

/-- Witness for C9 at the initial state, whose action slot holds None
exactly as the empty-catalogue short-circuit leaves it, on a parsed
result that also exercises the caught logger failure. -/
theorem spec_C9_witness :
    pyEqStrLit (optGetD baseState.action .null) "map_to_existing" = false
    ∧ normalize_schema (.content nrNoFields) baseState =
        (normalize_schema (.content nrNoFields)
            { baseState with action := some (.str "create_new") }).map
          (fun s' => { s' with action := baseState.action }) :=
  spec_C9 (.content nrNoFields) baseState rfl

/-! ## Claim C3: the three-tier fallback mapping rule -/

/-- Claim C3: for every source and target field list (with the names
the algorithm extracts), the fallback generator emits exactly one
mapping per target field, in target order, each chosen by the
three-tier rule of specFallbackOne: exact-name direct mapping at 0.9,
underscore-stripped direct mapping at 0.7, else a constant null mapping
at 0.5 with the stated explanation. -/
theorem spec_C3 (sf tf : List JVal) (sns tns : List String)
    (hs : extractNames sf = .ok sns) (ht : extractNames tf = .ok tns) :
    generate_fallback_mappings sf tf = .ok (tns.map (specFallbackOne sns)) := by
  unfold generate_fallback_mappings
  unfold extractNames at hs ht
  rw [hs, exbind_ok]
  induction tf generalizing tns with
  | nil =>
      rw [List.mapM_nil] at ht
      simp only [expure, Except.ok.injEq] at ht
      subst ht
      rw [List.mapM_nil]
      rfl
  | cons f tf' ih =>
      cases hn : pyIndex f "name" with
      | error e =>
          simp only [List.mapM_cons, hn, exbind_error] at ht
          exact absurd ht (by simp)
      | ok n =>
        cases he : expectStr n with
        | error e =>
            simp only [List.mapM_cons, hn, he, exbind_ok, exbind_error] at ht
            exact absurd ht (by simp)
        | ok t =>
          cases hts : tf'.mapM (fun f => do
              let n ← pyIndex f "name"
              expectStr n) with
          | error e =>
              simp only [List.mapM_cons, hn, he, hts, exbind_ok, exbind_error] at ht
              exact absurd ht (by simp)
          | ok ts =>
            simp only [List.mapM_cons, hn, he, hts, exbind_ok, exbind_error, expure,
              Except.ok.injEq] at ht
            subst ht
            simp only [List.mapM_cons, hn, he, exbind_ok, ih ts hts, List.map_cons]
            by_cases h1 : sns.contains t = true
            · simp only [specFallbackOne, h1, if_true]
              rfl
            · rw [Bool.not_eq_true] at h1
              by_cases h2 : sns.contains (removeUnderscores t) = true
              · simp only [specFallbackOne, h1, h2, Bool.false_eq_true, if_false, if_true]
                rfl
              · rw [Bool.not_eq_true] at h2
                simp only [specFallbackOne, h1, h2, Bool.false_eq_true, if_false]
                rfl

/-- Witness for C3 at the spec's own example: target phone_number with
source phonenumber matches through the underscore-stripped rule at
confidence 0.7. -/
theorem spec_C3_witness :
    generate_fallback_mappings
        [JVal.obj [("name", .str "phonenumber"), ("type", .str "string")]]
        [JVal.obj [("name", .str "phone_number"), ("type", .str "string")]]
      = .ok (["phone_number"].map (specFallbackOne ["phonenumber"]))
    ∧ specFallbackOne ["phonenumber"] "phone_number" =
        .obj [("source_field", .str "phonenumber"),
              ("target_field", .str "phone_number"),
              ("transformation", .str "direct"),
              ("jsonata_formula", .str "phonenumber"),
              ("confidence", .num (7 / 10)),
              ("explanation", .str "Field name match with underscore variation")] :=
  ⟨spec_C3 _ _ ["phonenumber"] ["phone_number"] rfl rfl, rfl⟩

/-! ## Claim C4: the Mapping Generator's validation pass -/

theorem repairChain_target (kvs : List (String × JVal)) (t : String) :
    alookup (repairChain kvs t) "target_field" = alookup kvs "target_field" := by
  unfold repairChain
  simp [apply_ite (fun l => alookup l "target_field"), alookup_aset_ne, ite_self]

theorem repairChain_trans (kvs : List (String × JVal)) (t : String) :
    alookup (repairChain kvs t) "transformation" = some (.str t) := by
  unfold repairChain
  simp [apply_ite (fun l => alookup l "transformation"), alookup_aset_ne, ite_self,
    alookup_aset_self]

theorem repairChain_conf (kvs : List (String × JVal)) (t : String) :
    alookup (repairChain kvs t) "confidence" =
      (if ahas kvs "confidence" then alookup kvs "confidence"
       else some (.num (8 / 10))) := by
  unfold repairChain
  simp [apply_ite (fun l => alookup l "confidence"), alookup_aset_ne, ite_self,
    alookup_aset_self, ahas_aset_ne]

theorem repairChain_jsonata (kvs : List (String × JVal)) (t : String) :
    alookup (repairChain kvs t) "jsonata_formula" =
      (if !(ahas kvs "jsonata_formula")
          || !((alookup kvs "jsonata_formula").getD .null).truthy then
         if t == "direct" && ((alookup kvs "source_field").getD .null).truthy then
           some ((alookup kvs "source_field").getD .null)
         else if t == "constant" then some (.str "\"\"")
         else alookup kvs "jsonata_formula"
       else alookup kvs "jsonata_formula") := by
  unfold repairChain
  simp [apply_ite (fun l => alookup l "jsonata_formula"), alookup_aset_ne, ite_self,
    alookup_aset_self, ahas_aset_ne, apply_ite (fun l => ahas l "jsonata_formula"),
    apply_ite (fun l => alookup l "source_field")]

theorem repairChain_source (kvs : List (String × JVal)) (t : String) :
    alookup (repairChain kvs t) "source_field" =
      (if ahas kvs "source_field" then alookup kvs "source_field"
       else some (.str "")) := by
  unfold repairChain
  simp [apply_ite (fun l => alookup l "source_field"), alookup_aset_ne, ite_self,
    alookup_aset_self, ahas_aset_ne, apply_ite (fun l => ahas l "source_field")]

theorem expectStr_ok (v : JVal) (s : String) (h : expectStr v = .ok s) : v = .str s := by
  cases v <;> simp_all [expectStr]

theorem alookup'_mem_values (tbl : List (String × String)) (l v : String)
    (h : alookup' tbl l = some v) : v ∈ tbl.map Prod.snd := by
  induction tbl with
  | nil => simp [alookup'] at h
  | cons p rest ih =>
      obtain ⟨k', v'⟩ := p
      by_cases hk : k' == l
      · simp [alookup', hk] at h
        simp [h]
      · simp only [alookup', hk, Bool.false_eq_true, if_false] at h
        simp [ih h]

theorem specNormTag_valid (t : String) :
    validTransformations.contains (specNormTag t) = true := by
  unfold specNormTag
  by_cases h : validTransformations.contains (pyLower t) = true
  · rw [if_pos h]
    exact h
  · rw [if_neg h]
    cases hl : alookup' transformationTable (pyLower t) with
    | none => rfl
    | some v =>
        have hv := alookup'_mem_values _ _ _ hl
        simp only [transformationTable, List.map] at hv
        simp only [Option.getD]
        simp only [List.mem_cons, List.not_mem_nil, or_false] at hv
        rcases hv with h1|h1|h1|h1|h1|h1|h1|h1|h1|h1|h1 <;> subst h1 <;> rfl

theorem validateOne_none (m : JVal) (h : validateOneMapping m = .ok none) :
    specKeepMapping m = false := by
  cases m with
  | obj kvs =>
      by_cases ht : ((alookup kvs "target_field").getD .null).truthy = true
      · cases hstr : expectStr ((alookup kvs "transformation").getD (.str "direct")) with
        | error e => simp [validateOneMapping, ht, hstr, exbind_error] at h
        | ok t0 => simp [validateOneMapping, ht, hstr, exbind_ok, expure] at h
      · simp [specKeepMapping, ht]
  | null => simp [validateOneMapping] at h
  | bool b => simp [validateOneMapping] at h
  | num q => simp [validateOneMapping] at h
  | str s => simp [validateOneMapping] at h
  | arr xs => simp [validateOneMapping] at h

theorem validateOne_some (m m' : JVal) (h : validateOneMapping m = .ok (some m')) :
    specKeepMapping m = true ∧ specRepairedRel m m' := by
  cases m with
  | obj kvs =>
      by_cases ht : ((alookup kvs "target_field").getD .null).truthy = true
      · refine ⟨by simp [specKeepMapping, ht], ?_⟩
        cases hstr : expectStr ((alookup kvs "transformation").getD (.str "direct")) with
        | error e => simp [validateOneMapping, ht, hstr, exbind_error] at h
        | ok t0 =>
            simp only [validateOneMapping, ht, Bool.not_true, Bool.false_eq_true, if_false,
              hstr, exbind_ok, expure, Except.ok.injEq, Option.some.injEq] at h
            have hfold :
                (if validTransformations.contains (pyLower t0) = true then pyLower t0
                 else (alookup' transformationTable (pyLower t0)).getD "formula")
                = specNormTag t0 := rfl
            rw [hfold] at h
            refine ⟨kvs, repairChain kvs (specNormTag t0), t0, rfl, h.symm, ht,
              repairChain_target kvs _, expectStr_ok _ _ hstr, repairChain_trans kvs _,
              specNormTag_valid t0, ?_, ?_, ?_⟩
            · rw [repairChain_conf]
              split <;> rfl
            · rw [repairChain_jsonata]
              repeat' split
              all_goals simp_all
            · rw [repairChain_source]
              split <;> rfl
      · simp [validateOneMapping, ht] at h
  | null => simp [validateOneMapping] at h
  | bool b => simp [validateOneMapping] at h
  | num q => simp [validateOneMapping] at h
  | str s => simp [validateOneMapping] at h
  | arr xs => simp [validateOneMapping] at h

/-- Claim C4: on success, the Mapping Generator's validation pass keeps
exactly the entries with a truthy target_field, in order, and each kept
entry is related to its repaired form by specRepairedRel (tag
lower-cased and normalized through the synonym table into the six-tag
set, confidence defaulted to 0.8 when absent, the formula defaulted for
direct-with-source and constant mappings when absent or empty and left
alone otherwise, source_field defaulted to empty when absent); as a
corollary every retained mapping's transformation lies in the
six-member set. -/
theorem validate_mappings_cons (m : JVal) (ms : List JVal) :
    validate_mappings (m :: ms) =
      (validateOneMapping m).bind (fun o =>
        (validate_mappings ms).map (fun rest =>
          match o with
          | some x => x :: rest
          | none => rest)) := by
  unfold validate_mappings
  rw [List.mapM_cons]
  cases ho : validateOneMapping m with
  | error e => simp only [ho, exbind_error, Except.bind]
  | ok o =>
      cases hos : ms.mapM validateOneMapping with
      | error e =>
          simp only [ho, hos, exbind_ok, exbind_error, expure, Except.bind, Except.map]
      | ok os =>
          simp only [ho, hos, exbind_ok, expure, Except.bind, Except.map]
          cases o <;> simp [List.filterMap_cons]

theorem spec_C4 (ms out : List JVal) (h : validate_mappings ms = .ok out) :
    List.Forall₂ specRepairedRel (ms.filter specKeepMapping) out
    ∧ ∀ m' ∈ out, ∃ kvs' tg, m' = .obj kvs'
        ∧ alookup kvs' "transformation" = some (.str tg)
        ∧ validTransformations.contains tg = true := by
  induction ms generalizing out with
  | nil =>
      simp only [validate_mappings, List.mapM_nil, exbind_ok, expure, Except.ok.injEq,
        List.filterMap_nil] at h
      subst h
      simp
  | cons m ms' ih =>
      rw [validate_mappings_cons] at h
      cases ho : validateOneMapping m with
      | error e => rw [ho] at h; exact absurd h (by simp [Except.bind])
      | ok o =>
        rw [ho] at h
        cases hos : validate_mappings ms' with
        | error e =>
            rw [hos] at h
            exact absurd h (by simp [Except.bind, Except.map])
        | ok rest =>
          rw [hos] at h
          simp only [Except.bind, Except.map, Except.ok.injEq] at h
          obtain ⟨ih1, ih2⟩ := ih rest hos
          cases o with
          | none =>
              subst h
              have hk := validateOne_none m ho
              simp only [List.filter_cons, hk, Bool.false_eq_true, if_false]
              exact ⟨ih1, ih2⟩
          | some m' =>
              subst h
              obtain ⟨hk, hrel⟩ := validateOne_some m m' ho
              simp only [List.filter_cons, hk, if_true]
              refine ⟨List.Forall₂.cons hrel ih1, ?_⟩
              intro x hx
              cases List.mem_cons.mp hx with
              | inl hx1 =>
                  subst hx1
                  obtain ⟨kvs, kvs', t0, _, hm', _, _, _, htr, hvalid, _⟩ := hrel
                  exact ⟨kvs', specNormTag t0, hm', htr, hvalid⟩
              | inr hx2 => exact ih2 x hx2

/-- Witness for C4: a mixed-case synonym tag (CONcat) is lower-cased
and remapped to combine with the defaults filled, while an entry
without target_field is dropped. -/
theorem spec_C4_witness :
    validate_mappings [c4MapA, JVal.obj []] = .ok [c4OutA]
    ∧ List.Forall₂ specRepairedRel
        ([c4MapA, JVal.obj []].filter specKeepMapping) [c4OutA]
    ∧ ∀ m' ∈ [c4OutA], ∃ kvs' tg, m' = .obj kvs'
        ∧ alookup kvs' "transformation" = some (.str tg)
        ∧ validTransformations.contains tg = true :=
  ⟨rfl, (spec_C4 [c4MapA, JVal.obj []] [c4OutA] rfl).1,
   (spec_C4 [c4MapA, JVal.obj []] [c4OutA] rfl).2⟩

/-! ## Response assembly: shared shape lemmas -/

theorem validate_response_ok_shape (r : Resp) (s : WState) (v : Resp)
    (h : validate_response r s = .ok v) :
    ∃ c, csRepair r.canonical_schema s = .ok c ∧
      v = { r with
            canonical_schema := c,
            field_mappings := .arr (fmRepair r.field_mappings),
            source_schema_name :=
              defaultIfFalsy r.source_schema_name
                (.str ("source_" ++ strTake s.incoming_schema.hash 8)),
            entity_name := defaultIfFalsy r.entity_name (.str "DataEntity"),
            reasoning :=
              defaultIfFalsy r.reasoning
                (.str "Schema analyzed through multi-step agent pipeline") } := by
  unfold validate_response at h
  cases hcs : csRepair r.canonical_schema s with
  | error e =>
      rw [hcs] at h
      exact absurd h (by simp [exbind_error])
  | ok c =>
      rw [hcs] at h
      simp only [exbind_ok, expure, Except.ok.injEq] at h
      exact ⟨c, rfl, h.symm⟩

theorem fmRepair_eq_spec (fm : JVal) : fmRepair fm = specKeptMappings fm := by
  cases fm <;> rfl

/-! ## Claim C6: mapping re-validation in response assembly -/

/-- Claim C6: on success, the response's field_mappings are exactly the
candidate entries with a non-empty (truthy) target_field, in their
original order, each rebuilt with the six attributes and the stated
defaults (source_field empty, transformation direct, jsonata_formula
empty, confidence 0.8, explanation empty). -/
theorem spec_C6 (r : Resp) (s : WState) (v : Resp)
    (h : validate_response r s = .ok v) :
    v.field_mappings = .arr (specKeptMappings r.field_mappings) := by
  obtain ⟨c, _, hv⟩ := validate_response_ok_shape r s v h
  subst hv
  simp [fmRepair_eq_spec]

/-- Witness for C6: an entry with an extra key is kept and rebuilt, a
non-dict entry and an entry without target_field are dropped, order
preserved. -/
theorem spec_C6_witness :
    validate_response c6Resp c6State = .ok c6Out
    ∧ c6Out.field_mappings = .arr (specKeptMappings c6Resp.field_mappings) :=
  ⟨rfl, spec_C6 c6Resp c6State c6Out rfl⟩

/-! ## Claim C10: exactly six attributes after the rebuild -/

theorem specKept_shape (fm : JVal) (m : JVal) (hm : m ∈ specKeptMappings fm) :
    ∃ a b c d e f, m = .obj
      [("source_field", a), ("target_field", b), ("transformation", c),
       ("jsonata_formula", d), ("confidence", e), ("explanation", f)] := by
  unfold specKeptMappings at hm
  obtain ⟨x, _, hfx⟩ := List.mem_filterMap.mp hm
  cases x with
  | obj kvs =>
      by_cases ht : ((alookup kvs "target_field").getD .null).truthy = true
      · simp only [ht, if_true, Option.some.injEq] at hfx
        exact ⟨_, _, _, _, _, _, hfx.symm⟩
      · simp [ht] at hfx
  | null => simp at hfx
  | bool b => simp at hfx
  | num q => simp at hfx
  | str t => simp at hfx
  | arr xs => simp at hfx

/-- Claim C10: every mapping in the output of validate_response carries
exactly the six declared attributes in a fixed layout — extra keys are
removed by the rebuild — whereas validate_mappings in the Mapping
Generator passes an extra key through, as the concrete equality on
extraKeyMapping shows. -/
theorem spec_C10 :
    (∀ (r : Resp) (s : WState) (v : Resp) (ms : List JVal),
       validate_response r s = .ok v → v.field_mappings = .arr ms →
       ∀ m ∈ ms, ∃ a b c d e f, m = .obj
         [("source_field", a), ("target_field", b), ("transformation", c),
          ("jsonata_formula", d), ("confidence", e), ("explanation", f)])
    ∧ validate_mappings [extraKeyMapping] = .ok [extraKeyKept] := by
  constructor
  · intro r s v ms h hms m hm
    obtain ⟨c, _, hv⟩ := validate_response_ok_shape r s v h
    subst hv
    simp only [fmRepair_eq_spec, JVal.arr.injEq] at hms
    exact specKept_shape r.field_mappings m (hms ▸ hm)
  · rfl

/-- Witness for C10 at the concrete mapping with an extra key: the
response-assembly rebuild emits exactly the six attributes. -/
theorem spec_C10_witness :
    ∃ a b c d e f, rebuiltX = JVal.obj
      [("source_field", a), ("target_field", b), ("transformation", c),
       ("jsonata_formula", d), ("confidence", e), ("explanation", f)] :=
  spec_C10.1 c6Resp c6State c6Out [rebuiltX] rfl rfl rebuiltX (by simp)

/-! ## Claim C5: the canonical-schema guarantee of response assembly -/

/-- Counterexample to C5 as stated: with one detected field but
normalization suggestions carrying a canonical_schema whose fields list
is empty, the repair pass adopts that value verbatim, and the final
response's canonical_schema has an empty fields list. -/
theorem spec_C5_counterexample :
    c5State.incoming_schema.detected_fields ≠ []
    ∧ (match prepare_response c5State with
       | .ok st => st.final_response.map Resp.canonical_schema
       | .error _ => none) = some (.obj [("fields", .arr [])]) := by
  constructor
  · simp [c5State, baseState, sampleIncoming]
  · rfl

theorem detectedFieldDefs_ok (fs : List JVal)
    (h : ∀ f ∈ fs, fieldDefOk f = true) :
    ∃ ds, detectedFieldDefs fs = .ok ds ∧ ds.length = fs.length := by
  induction fs with
  | nil => exact ⟨[], rfl, rfl⟩
  | cons f fs' ih =>
      have hf := h f (by simp)
      obtain ⟨ds', hds', hlen⟩ := ih (fun g hg => h g (by simp [hg]))
      cases f with
      | obj kvs =>
          simp only [fieldDefOk, Bool.and_eq_true, Option.isSome_iff_exists] at hf
          obtain ⟨⟨n, hn⟩, t, htk⟩ := hf
          refine ⟨.obj [("name", n), ("type", t),
            ("required", (alookup kvs "required").getD (.bool false))] :: ds', ?_, by simp [hlen]⟩
          have hpn : pyIndex (JVal.obj kvs) "name" = .ok n := by simp [pyIndex, hn]
          have hpt : pyIndex (JVal.obj kvs) "type" = .ok t := by simp [pyIndex, htk]
          have hpr : pyGetD (JVal.obj kvs) "required" (.bool false) =
              .ok ((alookup kvs "required").getD (.bool false)) := rfl
          unfold detectedFieldDefs at hds' ⊢
          simp only [expure] at hds'
          rw [List.mapM_cons]
          simp only [hpn, hpt, hpr, exbind_ok, expure, hds']
      | null => simp [fieldDefOk] at hf
      | bool b => simp [fieldDefOk] at hf
      | num q => simp [fieldDefOk] at hf
      | str u => simp [fieldDefOk] at hf
      | arr xs => simp [fieldDefOk] at hf

theorem errFieldMappings_ok (fs : List JVal)
    (h : ∀ f ∈ fs, fieldDefOk f = true) :
    ∃ fm, fs.mapM (fun f => do
      let n ← pyIndex f "name"
      pure (JVal.obj
        [("source_field", n),
         ("target_field", n),
         ("transformation", .str "direct"),
         ("jsonata_formula", n),
         ("confidence", .num (5 / 10)),
         ("explanation", .str "Fallback direct mapping due to processing error")]))
      = .ok fm := by
  induction fs with
  | nil => exact ⟨[], rfl⟩
  | cons f fs' ih =>
      have hf := h f (by simp)
      obtain ⟨fm', hfm'⟩ := ih (fun g hg => h g (by simp [hg]))
      cases f with
      | obj kvs =>
          simp only [fieldDefOk, Bool.and_eq_true, Option.isSome_iff_exists] at hf
          obtain ⟨⟨n, hn⟩, _⟩ := hf
          have hpn : pyIndex (JVal.obj kvs) "name" = .ok n := by simp [pyIndex, hn]
          simp only [expure] at hfm'
          refine ⟨(JVal.obj
            [("source_field", n), ("target_field", n),
             ("transformation", .str "direct"), ("jsonata_formula", n),
             ("confidence", .num (5 / 10)),
             ("explanation", .str "Fallback direct mapping due to processing error")]) :: fm', ?_⟩
          rw [List.mapM_cons]
          simp only [hpn, exbind_ok, expure, hfm']
      | null => simp [fieldDefOk] at hf
      | bool b => simp [fieldDefOk] at hf
      | num q => simp [fieldDefOk] at hf
      | str u => simp [fieldDefOk] at hf
      | arr xs => simp [fieldDefOk] at hf

theorem create_error_response_ok (s : WState) (err : String)
    (h : ∀ f ∈ s.incoming_schema.detected_fields, fieldDefOk f = true) :
    ∃ ds, detectedFieldDefs s.incoming_schema.detected_fields = .ok ds
      ∧ ds.length = s.incoming_schema.detected_fields.length
      ∧ ∃ er, create_error_response s err = .ok er
          ∧ er.canonical_schema = .obj [("fields", .arr ds)] := by
  obtain ⟨ds, hds, hlen⟩ := detectedFieldDefs_ok _ h
  obtain ⟨fm, hfm⟩ := errFieldMappings_ok _ h
  refine ⟨ds, hds, hlen, ?_⟩
  unfold create_error_response
  rw [hds]
  simp only [exbind_ok]
  rw [hfm]
  simp only [exbind_ok, expure]
  exact ⟨_, rfl, rfl⟩

theorem validate_response_of_csRepair (r : Resp) (s : WState) (c : JVal)
    (h : csRepair r.canonical_schema s = .ok c) :
    validate_response r s = .ok
      { r with
        canonical_schema := c,
        field_mappings := .arr (fmRepair r.field_mappings),
        source_schema_name :=
          defaultIfFalsy r.source_schema_name
            (.str ("source_" ++ strTake s.incoming_schema.hash 8)),
        entity_name := defaultIfFalsy r.entity_name (.str "DataEntity"),
        reasoning :=
          defaultIfFalsy r.reasoning
            (.str "Schema analyzed through multi-step agent pipeline") } := by
  unfold validate_response
  rw [h]
  simp only [exbind_ok, expure]

theorem validate_response_of_csRepair_error (r : Resp) (s : WState) (msg : String)
    (h : csRepair r.canonical_schema s = .error msg) :
    validate_response r s = .error msg := by
  unfold validate_response
  rw [h]
  rfl

theorem prepare_response_of_ok (s : WState) (v : Resp)
    (h : validate_response (prepRespInput s) s = .ok v) :
    prepare_response s = .ok
      { s with final_response := some v,
               processing_history := s.processing_history ++ ["response_prepared"] } := by
  simp only [prepare_response, h]
  rfl

theorem prepare_response_of_error (s : WState) (msg : String) (er : Resp)
    (h : validate_response (prepRespInput s) s = .error msg)
    (her : create_error_response s msg = .ok er) :
    prepare_response s = .ok { s with final_response := some er } := by
  simp only [prepare_response, h, her, exbind_ok, expure]

/-- Claim C5 amended: whenever the detected fields are well-formed and
non-empty, the state's canonical-schema candidate is benign (an object
when truthy, with truthy fields only as a list), and a truthy
normalization_suggestions.canonical_schema is an object with a
non-empty fields list, the final response's canonical_schema carries a
non-empty fields list, selected as the claim describes: the candidate
when it has truthy fields, else the suggestions' value verbatim when
truthy, else one synthesized FieldDefinition per detected field; the
original claim fails without the suggestions-shape condition, as the
counterexample shows (a suggestions canonical_schema with an empty
fields list is adopted verbatim). -/
theorem spec_C5_amended (s : WState)
    (h1 : s.incoming_schema.detected_fields ≠ [])
    (h2 : ∀ f ∈ s.incoming_schema.detected_fields, fieldDefOk f = true)
    (h3 : csCandidateOk (optGetD s.canonical_schema (.obj [("fields", .arr [])])) = true)
    (h4 : nsCsStrongOk s = true) :
    ∃ st v flds, prepare_response s = .ok st ∧ st.final_response = some v
      ∧ alookupJ v.canonical_schema "fields" = some (.arr flds) ∧ flds ≠ []
      ∧ (candKept (optGetD s.canonical_schema (.obj [("fields", .arr [])])) = true →
          v.canonical_schema = optGetD s.canonical_schema (.obj [("fields", .arr [])]))
      ∧ (candKept (optGetD s.canonical_schema (.obj [("fields", .arr [])])) = false →
          (nsCsVal s).truthy = true → v.canonical_schema = nsCsVal s)
      ∧ (candKept (optGetD s.canonical_schema (.obj [("fields", .arr [])])) = false →
          (nsCsVal s).truthy = false →
          ∃ ds, detectedFieldDefs s.incoming_schema.detected_fields = .ok ds
            ∧ v.canonical_schema = .obj [("fields", .arr ds)]) := by
  have hre : (prepRespInput s).canonical_schema
      = optGetD s.canonical_schema (.obj [("fields", .arr [])]) := rfl
  by_cases hck : candKept (optGetD s.canonical_schema (.obj [("fields", .arr [])])) = true
  · -- the candidate is kept: it is a truthy object with truthy fields
    cases hcv : optGetD s.canonical_schema (.obj [("fields", .arr [])]) with
    | obj kvs =>
        rw [hcv] at hck h3
        simp only [candKept, Bool.and_eq_true] at hck
        obtain ⟨hct, hcm⟩ := hck
        cases hfl : alookup kvs "fields" with
        | none => rw [hfl] at hcm; simp [JVal.truthy] at hcm
        | some fv =>
          rw [hfl] at hcm
          simp only [Option.getD] at hcm
          have hfarr : ∃ fs, fv = JVal.arr fs := by
            simp only [csCandidateOk, hct, hfl, Bool.true_or, Bool.or_eq_true,
              Bool.not_eq_true'] at h3
            cases fv with
            | arr fs => exact ⟨fs, rfl⟩
            | null => simp [JVal.truthy] at hcm
            | bool b => simp_all [JVal.truthy]
            | num q => simp_all [JVal.truthy]
            | str u => simp_all [JVal.truthy]
            | obj o => simp_all [JVal.truthy]
          obtain ⟨fs, rfl⟩ := hfarr
          have hfs : fs ≠ [] := by
            simpa [JVal.truthy, List.isEmpty_iff] using hcm
          have hcs : csRepair (prepRespInput s).canonical_schema s = .ok (.obj kvs) := by
            rw [hre, hcv]
            unfold csRepair
            simp only [hct, if_true, pyGet, hfl, Option.getD, exbind_ok, hcm,
              Bool.not_true, Bool.false_eq_true, if_false, expure]
          have hv := validate_response_of_csRepair _ s _ hcs
          refine ⟨_, _, fs, prepare_response_of_ok s _ hv, rfl, ?_, hfs, ?_, ?_, ?_⟩
          · simp [alookupJ, hfl]
          · intro _
            rfl
          · intro hcf
            simp [candKept, hct, hfl, hcm] at hcf
          · intro hcf
            simp [candKept, hct, hfl, hcm] at hcf
    | null => rw [hcv] at hck; simp [candKept, JVal.truthy] at hck
    | bool b => rw [hcv] at hck; simp [candKept] at hck
    | num q => rw [hcv] at hck; simp [candKept] at hck
    | str u => rw [hcv] at hck; simp [candKept] at hck
    | arr xs => rw [hcv] at hck; simp [candKept] at hck
  · -- the candidate is not kept: the repair branch is entered
    rw [Bool.not_eq_true] at hck
    have henter : csRepair (prepRespInput s).canonical_schema s =
        ((do
          let nscs ← pyGet (optGetD s.normalization_suggestions (.obj [])) "canonical_schema"
          if nscs.truthy then pure nscs
          else do
            let flds ← detectedFieldDefs s.incoming_schema.detected_fields
            pure (JVal.obj [("fields", .arr flds)])) : Except String JVal) := by
      rw [hre]
      cases hcv : optGetD s.canonical_schema (.obj [("fields", .arr [])]) with
      | obj kvs =>
          rw [hcv] at hck h3
          by_cases hct : (JVal.obj kvs).truthy = true
          · have hfal : ((alookup kvs "fields").getD .null).truthy = false := by
              have hck' := hck
              simp only [candKept, hct, Bool.true_and] at hck'
              exact hck'
            unfold csRepair
            simp only [hct, if_true, pyGet, exbind_ok, hfal, Bool.not_false, expure]
          · unfold csRepair
            simp only [Bool.not_eq_true] at hct
            simp only [hct, Bool.false_eq_true, if_false, expure, exbind_ok, if_true]
      | null =>
          unfold csRepair
          simp [JVal.truthy]
      | bool b =>
          rw [hcv] at h3
          have hft : (JVal.bool b).truthy = false := by
            simpa [csCandidateOk] using h3
          unfold csRepair
          simp only [hft, Bool.false_eq_true, if_false, expure, exbind_ok, if_true]
      | num q =>
          rw [hcv] at h3
          have hft : (JVal.num q).truthy = false := by
            simpa [csCandidateOk] using h3
          unfold csRepair
          simp only [hft, Bool.false_eq_true, if_false, expure, exbind_ok, if_true]
      | str u =>
          rw [hcv] at h3
          have hft : (JVal.str u).truthy = false := by
            simpa [csCandidateOk] using h3
          unfold csRepair
          simp only [hft, Bool.false_eq_true, if_false, expure, exbind_ok, if_true]
      | arr xs =>
          rw [hcv] at h3
          have hft : (JVal.arr xs).truthy = false := by
            simpa [csCandidateOk] using h3
          unfold csRepair
          simp only [hft, Bool.false_eq_true, if_false, expure, exbind_ok, if_true]
    cases hnsv : optGetD s.normalization_suggestions (.obj []) with
    | obj nkvs =>
        have hnv : nsCsVal s = (alookup nkvs "canonical_schema").getD .null := by
          simp [nsCsVal, hnsv]
        by_cases hnt : ((alookup nkvs "canonical_schema").getD .null).truthy = true
        · -- the suggestions' canonical_schema is adopted
          have hshape : ∃ vkvs fs, (alookup nkvs "canonical_schema").getD .null = .obj vkvs
              ∧ alookup vkvs "fields" = some (.arr fs) ∧ fs ≠ [] := by
            cases hl : alookup nkvs "canonical_schema" with
            | none => rw [hl] at hnt; simp [JVal.truthy] at hnt
            | some v0 =>
                rw [hl] at hnt
                simp only [Option.getD] at hnt ⊢
                cases v0 with
                | obj vkvs =>
                    simp only [nsCsStrongOk, hnsv, hl, hnt, Bool.not_true,
                      Bool.false_or] at h4
                    cases hfv : alookup vkvs "fields" with
                    | none => simp only [hfv] at h4; exact absurd h4 (by simp)
                    | some fv =>
                        simp only [hfv] at h4
                        cases fv with
                        | arr fs =>
                            refine ⟨vkvs, fs, rfl, hfv, ?_⟩
                            simpa [List.isEmpty_iff] using h4
                        | null => simp at h4
                        | bool b => simp at h4
                        | num q => simp at h4
                        | str u => simp at h4
                        | obj o => simp at h4
                | null => simp [JVal.truthy] at hnt
                | bool b =>
                    simp [nsCsStrongOk, hnsv, hl, JVal.truthy] at h4
                    simp [JVal.truthy, h4] at hnt
                | num q =>
                    simp [nsCsStrongOk, hnsv, hl, JVal.truthy] at h4
                    simp [JVal.truthy, h4] at hnt
                | str u =>
                    simp [nsCsStrongOk, hnsv, hl, JVal.truthy] at h4
                    simp [JVal.truthy, h4] at hnt
                | arr xs =>
                    simp [nsCsStrongOk, hnsv, hl, JVal.truthy] at h4
                    simp [JVal.truthy, h4] at hnt
          obtain ⟨vkvs, fs, hveq, hvf, hfs⟩ := hshape
          have hcs : csRepair (prepRespInput s).canonical_schema s
              = .ok ((alookup nkvs "canonical_schema").getD .null) := by
            rw [henter]
            simp [pyGet, hnsv, exbind_ok, hnt, expure]
          have hv := validate_response_of_csRepair _ s _ hcs
          refine ⟨_, _, fs, prepare_response_of_ok s _ hv, rfl, ?_, hfs, ?_, ?_, ?_⟩
          · simp [alookupJ, hveq, hvf]
          · intro hc
            rw [hc] at hck
            cases hck
          · intro _ _
            rw [hnv]
          · intro _ hnf
            rw [hnv] at hnf
            rw [hnf] at hnt
            cases hnt
        · -- synthesize from the detected fields
          rw [Bool.not_eq_true] at hnt
          obtain ⟨ds, hds, hlen⟩ := detectedFieldDefs_ok _ h2
          have hdne : ds ≠ [] := by
            intro hd
            apply h1
            cases hfields : s.incoming_schema.detected_fields with
            | nil => rfl
            | cons a l => rw [hfields] at hlen; rw [hd] at hlen; simp at hlen
          have hcs : csRepair (prepRespInput s).canonical_schema s
              = .ok (.obj [("fields", .arr ds)]) := by
            rw [henter]
            simp [pyGet, hnsv, hnt, hds, exbind_ok, expure]
          have hv := validate_response_of_csRepair _ s _ hcs
          refine ⟨_, _, ds, prepare_response_of_ok s _ hv, rfl, ?_, hdne, ?_, ?_, ?_⟩
          · simp [alookupJ, alookup]
          · intro hc
            rw [hc] at hck
            cases hck
          · intro _ hnf
            rw [hnv] at hnf
            rw [hnt] at hnf
            cases hnf
          · intro _ _
            exact ⟨ds, hds, rfl⟩
    | null =>
        have hnv : nsCsVal s = .null := by simp [nsCsVal, hnsv]
        have hcse : csRepair (prepRespInput s).canonical_schema s
            = .error "AttributeError: get" := by
          rw [henter]
          simp [pyGet, hnsv, exbind_error]
        have hvr := validate_response_of_csRepair_error (prepRespInput s) s _ hcse
        obtain ⟨ds, hds, hlen, er, her, hercs⟩ :=
          create_error_response_ok s "AttributeError: get" h2
        have hdne : ds ≠ [] := by
          intro hd
          apply h1
          cases hfields : s.incoming_schema.detected_fields with
          | nil => rfl
          | cons a l => rw [hfields] at hlen; rw [hd] at hlen; simp at hlen
        refine ⟨_, er, ds, prepare_response_of_error s _ er hvr her, rfl, ?_, hdne, ?_, ?_, ?_⟩
        · simp [hercs, alookupJ, alookup]
        · intro hc
          rw [hc] at hck
          cases hck
        · intro _ hnf
          rw [hnv] at hnf
          simp [JVal.truthy] at hnf
        · intro _ _
          exact ⟨ds, hds, hercs⟩
    | bool b =>
        have hnv : nsCsVal s = .null := by simp [nsCsVal, hnsv]
        have hcse : csRepair (prepRespInput s).canonical_schema s
            = .error "AttributeError: get" := by
          rw [henter]
          simp [pyGet, hnsv, exbind_error]
        have hvr := validate_response_of_csRepair_error (prepRespInput s) s _ hcse
        obtain ⟨ds, hds, hlen, er, her, hercs⟩ :=
          create_error_response_ok s "AttributeError: get" h2
        have hdne : ds ≠ [] := by
          intro hd
          apply h1
          cases hfields : s.incoming_schema.detected_fields with
          | nil => rfl
          | cons a l => rw [hfields] at hlen; rw [hd] at hlen; simp at hlen
        refine ⟨_, er, ds, prepare_response_of_error s _ er hvr her, rfl, ?_, hdne, ?_, ?_, ?_⟩
        · simp [hercs, alookupJ, alookup]
        · intro hc
          rw [hc] at hck
          cases hck
        · intro _ hnf
          rw [hnv] at hnf
          simp [JVal.truthy] at hnf
        · intro _ _
          exact ⟨ds, hds, hercs⟩
    | num q =>
        have hnv : nsCsVal s = .null := by simp [nsCsVal, hnsv]
        have hcse : csRepair (prepRespInput s).canonical_schema s
            = .error "AttributeError: get" := by
          rw [henter]
          simp [pyGet, hnsv, exbind_error]
        have hvr := validate_response_of_csRepair_error (prepRespInput s) s _ hcse
        obtain ⟨ds, hds, hlen, er, her, hercs⟩ :=
          create_error_response_ok s "AttributeError: get" h2
        have hdne : ds ≠ [] := by
          intro hd
          apply h1
          cases hfields : s.incoming_schema.detected_fields with
          | nil => rfl
          | cons a l => rw [hfields] at hlen; rw [hd] at hlen; simp at hlen
        refine ⟨_, er, ds, prepare_response_of_error s _ er hvr her, rfl, ?_, hdne, ?_, ?_, ?_⟩
        · simp [hercs, alookupJ, alookup]
        · intro hc
          rw [hc] at hck
          cases hck
        · intro _ hnf
          rw [hnv] at hnf
          simp [JVal.truthy] at hnf
        · intro _ _
          exact ⟨ds, hds, hercs⟩
    | str u =>
        have hnv : nsCsVal s = .null := by simp [nsCsVal, hnsv]
        have hcse : csRepair (prepRespInput s).canonical_schema s
            = .error "AttributeError: get" := by
          rw [henter]
          simp [pyGet, hnsv, exbind_error]
        have hvr := validate_response_of_csRepair_error (prepRespInput s) s _ hcse
        obtain ⟨ds, hds, hlen, er, her, hercs⟩ :=
          create_error_response_ok s "AttributeError: get" h2
        have hdne : ds ≠ [] := by
          intro hd
          apply h1
          cases hfields : s.incoming_schema.detected_fields with
          | nil => rfl
          | cons a l => rw [hfields] at hlen; rw [hd] at hlen; simp at hlen
        refine ⟨_, er, ds, prepare_response_of_error s _ er hvr her, rfl, ?_, hdne, ?_, ?_, ?_⟩
        · simp [hercs, alookupJ, alookup]
        · intro hc
          rw [hc] at hck
          cases hck
        · intro _ hnf
          rw [hnv] at hnf
          simp [JVal.truthy] at hnf
        · intro _ _
          exact ⟨ds, hds, hercs⟩
    | arr xs =>
        have hnv : nsCsVal s = .null := by simp [nsCsVal, hnsv]
        have hcse : csRepair (prepRespInput s).canonical_schema s
            = .error "AttributeError: get" := by
          rw [henter]
          simp [pyGet, hnsv, exbind_error]
        have hvr := validate_response_of_csRepair_error (prepRespInput s) s _ hcse
        obtain ⟨ds, hds, hlen, er, her, hercs⟩ :=
          create_error_response_ok s "AttributeError: get" h2
        have hdne : ds ≠ [] := by
          intro hd
          apply h1
          cases hfields : s.incoming_schema.detected_fields with
          | nil => rfl
          | cons a l => rw [hfields] at hlen; rw [hd] at hlen; simp at hlen
        refine ⟨_, er, ds, prepare_response_of_error s _ er hvr her, rfl, ?_, hdne, ?_, ?_, ?_⟩
        · simp [hercs, alookupJ, alookup]
        · intro hc
          rw [hc] at hck
          cases hck
        · intro _ hnf
          rw [hnv] at hnf
          simp [JVal.truthy] at hnf
        · intro _ _
          exact ⟨ds, hds, hercs⟩

/-- Witness for the amended C5 at a state with one detected field, an
absent canonical-schema candidate and suggestions without a
canonical_schema: the fallback synthesis fires. -/
theorem spec_C5_witness :
    ∃ st v flds, prepare_response c6State = .ok st ∧ st.final_response = some v
      ∧ alookupJ v.canonical_schema "fields" = some (.arr flds) ∧ flds ≠ []
      ∧ (candKept (optGetD c6State.canonical_schema (.obj [("fields", .arr [])])) = true →
          v.canonical_schema = optGetD c6State.canonical_schema (.obj [("fields", .arr [])]))
      ∧ (candKept (optGetD c6State.canonical_schema (.obj [("fields", .arr [])])) = false →
          (nsCsVal c6State).truthy = true → v.canonical_schema = nsCsVal c6State)
      ∧ (candKept (optGetD c6State.canonical_schema (.obj [("fields", .arr [])])) = false →
          (nsCsVal c6State).truthy = false →
          ∃ ds, detectedFieldDefs c6State.incoming_schema.detected_fields = .ok ds
            ∧ v.canonical_schema = .obj [("fields", .arr ds)]) :=
  spec_C5_amended c6State
    (by simp [c6State, baseState, sampleIncoming])
    (by
      intro f hf
      simp only [c6State, baseState, sampleIncoming, List.mem_singleton] at hf
      subst hf
      rfl)
    rfl rfl

/-! ## Claim C7: idempotence of the validation and repair pass -/

/-- Counterexample to C7 as stated: a state whose normalization
suggestions carry a truthy non-object canonical_schema.  The first
application adopts it verbatim; the second application then calls get
on a non-dict canonical_schema and raises, so re-running the pass does
not reproduce the first output. -/
theorem spec_C7_counterexample :
    validate_response nullResp c7State = .ok c7Mid
    ∧ validate_response c7Mid c7State = .error "AttributeError: get"
    ∧ validate_response c7Mid c7State ≠ validate_response nullResp c7State := by
  have h1 : validate_response nullResp c7State = .ok c7Mid := rfl
  have h2 : validate_response c7Mid c7State = .error "AttributeError: get" := rfl
  refine ⟨h1, h2, ?_⟩
  intro hc
  rw [h1, h2] at hc
  exact Except.noConfusion hc

theorem nsBranch_cases (s : WState) (c : JVal)
    (h : ((do
      let nscs ← pyGet (optGetD s.normalization_suggestions (.obj [])) "canonical_schema"
      if nscs.truthy then pure nscs
      else do
        let flds ← detectedFieldDefs s.incoming_schema.detected_fields
        pure (JVal.obj [("fields", .arr flds)])) : Except String JVal) = .ok c) :
    (∃ nkvs, optGetD s.normalization_suggestions (.obj []) = .obj nkvs
      ∧ ((alookup nkvs "canonical_schema").getD .null).truthy = true
      ∧ c = (alookup nkvs "canonical_schema").getD .null)
    ∨ (∃ nkvs ds, optGetD s.normalization_suggestions (.obj []) = .obj nkvs
      ∧ ((alookup nkvs "canonical_schema").getD .null).truthy = false
      ∧ detectedFieldDefs s.incoming_schema.detected_fields = .ok ds
      ∧ c = .obj [("fields", .arr ds)]) := by
  cases hnsv : optGetD s.normalization_suggestions (.obj []) with
  | obj nkvs =>
      rw [hnsv] at h
      simp only [pyGet, exbind_ok] at h
      by_cases hnt : ((alookup nkvs "canonical_schema").getD .null).truthy = true
      · left
        refine ⟨nkvs, rfl, hnt, ?_⟩
        simp only [hnt, if_true, expure, Except.ok.injEq] at h
        exact h.symm
      · right
        rw [Bool.not_eq_true] at hnt
        simp only [hnt, Bool.false_eq_true, if_false] at h
        cases hds : detectedFieldDefs s.incoming_schema.detected_fields with
        | error e => rw [hds] at h; exact absurd h (by simp [exbind_error])
        | ok ds =>
            rw [hds] at h
            simp only [exbind_ok, expure, Except.ok.injEq] at h
            exact ⟨nkvs, ds, rfl, hnt, rfl, h.symm⟩
  | null => rw [hnsv] at h; simp [pyGet, exbind_error] at h
  | bool b => rw [hnsv] at h; simp [pyGet, exbind_error] at h
  | num q => rw [hnsv] at h; simp [pyGet, exbind_error] at h
  | str u => rw [hnsv] at h; simp [pyGet, exbind_error] at h
  | arr xs => rw [hnsv] at h; simp [pyGet, exbind_error] at h

theorem csRepair_idem (s : WState) (hb : nsBenign s = true) (cs c : JVal)
    (h : csRepair cs s = .ok c) : csRepair c s = .ok c := by
  by_cases hct : cs.truthy = true
  · cases cs with
    | obj kvs =>
        rw [csRepair] at h
        simp only [hct, if_true, pyGet, exbind_ok] at h
        by_cases hfv : ((alookup kvs "fields").getD .null).truthy = true
        · -- the candidate was kept unchanged
          simp only [hfv, Bool.not_true, Bool.false_eq_true, if_false, expure,
            exbind_ok, Except.ok.injEq] at h
          subst h
          rw [csRepair]
          simp only [hct, if_true, pyGet, exbind_ok, hfv, Bool.not_true,
            Bool.false_eq_true, if_false, expure]
        · -- the branch was entered
          rw [Bool.not_eq_true] at hfv
          simp only [hfv, Bool.not_false, if_true, expure, exbind_ok] at h
          rcases nsBranch_cases s c h with ⟨nkvs, hnsv, hnt, hc⟩ | ⟨nkvs, ds, hnsv, hnt, hds, hc⟩
          · have hobj : ∃ ckvs, c = JVal.obj ckvs := by
              simp only [nsBenign, hnsv] at hb
              cases hl : alookup nkvs "canonical_schema" with
              | none => rw [hl] at hnt; simp [JVal.truthy] at hnt
              | some v0 =>
                  simp only [hl, Option.getD] at hb hc hnt
                  cases v0 with
                  | obj ckvs => exact ⟨ckvs, hc⟩
                  | null => simp [JVal.truthy] at hnt
                  | bool b => simp [hnt] at hb
                  | num q => simp [hnt] at hb
                  | str u => simp [hnt] at hb
                  | arr xs => simp [hnt] at hb
            obtain ⟨ckvs, hceq⟩ := hobj
            rw [csRepair]
            have hctru : c.truthy = true := by rw [hc]; exact hnt
            rw [hceq] at hctru ⊢
            simp only [hctru, if_true, pyGet, exbind_ok]
            by_cases hcf : ((alookup ckvs "fields").getD .null).truthy = true
            · simp only [hcf, Bool.not_true, Bool.false_eq_true, if_false, expure,
                exbind_ok]
            · rw [Bool.not_eq_true] at hcf
              simp only [hcf, Bool.not_false, if_true, pyGet, hnsv, exbind_ok, hnt,
                expure]
              rw [hceq] at hc
              rw [hc]
          · rw [csRepair, hc]
            cases ds with
            | nil =>
                have h1 : (JVal.obj [("fields", JVal.arr [])]).truthy = true := rfl
                have h2 : pyGet (JVal.obj [("fields", JVal.arr [])]) "fields" =
                    Except.ok (JVal.arr []) := rfl
                have h3 : (JVal.arr []).truthy = false := rfl
                simp only [h1, if_true, h2, exbind_ok, h3, Bool.not_false, expure, hnsv,
                  pyGet, hnt, Bool.false_eq_true, if_false, hds]
                exact ite_self _
            | cons d ds' =>
                have h1 : (JVal.obj [("fields", JVal.arr (d :: ds'))]).truthy = true := rfl
                have h2 : pyGet (JVal.obj [("fields", JVal.arr (d :: ds'))]) "fields" =
                    Except.ok (JVal.arr (d :: ds')) := rfl
                have h3 : (JVal.arr (d :: ds')).truthy = true := rfl
                simp only [h1, if_true, h2, exbind_ok, h3, Bool.not_true, expure,
                  Bool.false_eq_true, if_false]
    | null => simp [JVal.truthy] at hct
    | bool b =>
        rw [csRepair] at h
        simp only [hct, if_true, pyGet, exbind_error] at h
        exact Except.noConfusion h
    | num q =>
        rw [csRepair] at h
        simp only [hct, if_true, pyGet, exbind_error] at h
        exact Except.noConfusion h
    | str u =>
        rw [csRepair] at h
        simp only [hct, if_true, pyGet, exbind_error] at h
        exact Except.noConfusion h
    | arr xs =>
        rw [csRepair] at h
        simp only [hct, if_true, pyGet, exbind_error] at h
        exact Except.noConfusion h
  · rw [Bool.not_eq_true] at hct
    rw [csRepair] at h
    simp only [hct, Bool.false_eq_true, if_false, expure, if_true, exbind_ok] at h
    rcases nsBranch_cases s c h with ⟨nkvs, hnsv, hnt, hc⟩ | ⟨nkvs, ds, hnsv, hnt, hds, hc⟩
    · have hobj : ∃ ckvs, c = JVal.obj ckvs := by
        simp only [nsBenign, hnsv] at hb
        cases hl : alookup nkvs "canonical_schema" with
        | none => rw [hl] at hnt; simp [JVal.truthy] at hnt
        | some v0 =>
            simp only [hl, Option.getD] at hb hc hnt
            cases v0 with
            | obj ckvs => exact ⟨ckvs, hc⟩
            | null => simp [JVal.truthy] at hnt
            | bool b => simp [hnt] at hb
            | num q => simp [hnt] at hb
            | str u => simp [hnt] at hb
            | arr xs => simp [hnt] at hb
      obtain ⟨ckvs, hceq⟩ := hobj
      rw [csRepair]
      have hctru : c.truthy = true := by rw [hc]; exact hnt
      rw [hceq] at hctru ⊢
      simp only [hctru, if_true, pyGet, exbind_ok]
      by_cases hcf : ((alookup ckvs "fields").getD .null).truthy = true
      · simp only [hcf, Bool.not_true, Bool.false_eq_true, if_false, expure,
          exbind_ok]
      · rw [Bool.not_eq_true] at hcf
        simp only [hcf, Bool.not_false, if_true, pyGet, hnsv, exbind_ok, hnt, expure]
        rw [hceq] at hc
        rw [hc]
    · rw [csRepair, hc]
      cases ds with
      | nil =>
          have h1 : (JVal.obj [("fields", JVal.arr [])]).truthy = true := rfl
          have h2 : pyGet (JVal.obj [("fields", JVal.arr [])]) "fields" =
              Except.ok (JVal.arr []) := rfl
          have h3 : (JVal.arr []).truthy = false := rfl
          simp only [h1, if_true, h2, exbind_ok, h3, Bool.not_false, expure, hnsv,
            pyGet, hnt, Bool.false_eq_true, if_false, hds]
          exact ite_self _
      | cons d ds' =>
          have h1 : (JVal.obj [("fields", JVal.arr (d :: ds'))]).truthy = true := rfl
          have h2 : pyGet (JVal.obj [("fields", JVal.arr (d :: ds'))]) "fields" =
              Except.ok (JVal.arr (d :: ds')) := rfl
          have h3 : (JVal.arr (d :: ds')).truthy = true := rfl
          simp only [h1, if_true, h2, exbind_ok, h3, Bool.not_true, expure,
            Bool.false_eq_true, if_false]



theorem validateRespMapping_rebuild (sf tf tr jf cf ex : JVal)
    (ht : tf.truthy = true) :
    validateRespMapping (JVal.obj
      [("source_field", sf), ("target_field", tf), ("transformation", tr),
       ("jsonata_formula", jf), ("confidence", cf), ("explanation", ex)]) =
    some (JVal.obj
      [("source_field", sf), ("target_field", tf), ("transformation", tr),
       ("jsonata_formula", jf), ("confidence", cf), ("explanation", ex)]) := by
  have hr : validateRespMapping (JVal.obj
      [("source_field", sf), ("target_field", tf), ("transformation", tr),
       ("jsonata_formula", jf), ("confidence", cf), ("explanation", ex)]) =
      if tf.truthy = true then
        some (JVal.obj
          [("source_field", sf), ("target_field", tf), ("transformation", tr),
           ("jsonata_formula", jf), ("confidence", cf), ("explanation", ex)])
      else none := rfl
  rw [hr, if_pos ht]

theorem validateRespMapping_idem (m m' : JVal)
    (h : validateRespMapping m = some m') : validateRespMapping m' = some m' := by
  cases m with
  | obj kvs =>
      simp only [validateRespMapping] at h
      by_cases ht : ((alookup kvs "target_field").getD .null).truthy = true
      · rw [if_pos ht, Option.some.injEq] at h
        subst h
        exact validateRespMapping_rebuild _ _ _ _ _ _ ht
      · rw [if_neg ht] at h
        exact Option.noConfusion h
  | null => exact Option.noConfusion h
  | bool b => exact Option.noConfusion h
  | num q => exact Option.noConfusion h
  | str u => exact Option.noConfusion h
  | arr xs => exact Option.noConfusion h

theorem filterMap_self {α : Type} (f : α → Option α) :
    ∀ xs : List α, (∀ x ∈ xs, f x = some x) → xs.filterMap f = xs := by
  intro xs
  induction xs with
  | nil => intro _; rfl
  | cons a tl ih =>
      intro h
      rw [List.filterMap_cons, h a (List.mem_cons_self a tl),
        ih (fun x hx => h x (List.mem_cons_of_mem a hx))]

theorem fmRepair_idem (fm : JVal) :
    fmRepair (.arr (fmRepair fm)) = fmRepair fm := by
  show (fmRepair fm).filterMap validateRespMapping = fmRepair fm
  apply filterMap_self
  intro x hx
  cases fm with
  | arr xs =>
      simp only [fmRepair] at hx
      rcases List.mem_filterMap.1 hx with ⟨a, _, ha⟩
      exact validateRespMapping_idem a x ha
  | null => simp only [fmRepair] at hx; exact absurd hx (List.not_mem_nil x)
  | bool b => simp only [fmRepair] at hx; exact absurd hx (List.not_mem_nil x)
  | num q => simp only [fmRepair] at hx; exact absurd hx (List.not_mem_nil x)
  | str u => simp only [fmRepair] at hx; exact absurd hx (List.not_mem_nil x)
  | obj kvs => simp only [fmRepair] at hx; exact absurd hx (List.not_mem_nil x)

theorem defaultIfFalsy_idem (v d : JVal) :
    defaultIfFalsy (defaultIfFalsy v d) d = defaultIfFalsy v d := by
  by_cases h : v.truthy = true <;> simp [defaultIfFalsy, h]

/-- C7 (amended).  The validation and repair pass is idempotent on
every state whose normalization_suggestions.canonical_schema, when
truthy, is an object: whenever validate_response r s succeeds with
value v, running validate_response again on v over the same state
returns v unchanged.  (The unconditional claim fails: a truthy
non-object suggestions canonical_schema is adopted verbatim and makes
the second pass raise, as the counterexample shows.) -/
theorem spec_C7_amended (s : WState) (r v : Resp)
    (hb : nsBenign s = true)
    (h : validate_response r s = .ok v) :
    validate_response v s = .ok v := by
  rw [validate_response] at h
  cases hcs : csRepair r.canonical_schema s with
  | error e => rw [hcs] at h; exact absurd h (by simp [exbind_error])
  | ok cs =>
      rw [hcs] at h
      simp only [exbind_ok, expure, Except.ok.injEq] at h
      subst h
      rw [validate_response]
      have h1 : csRepair cs s = Except.ok cs :=
        csRepair_idem s hb r.canonical_schema cs hcs
      simp only [h1, exbind_ok, expure, fmRepair_idem, defaultIfFalsy_idem,
        Except.ok.injEq]

theorem spec_C7_witness :
    nsBenign c6State = true
    ∧ validate_response nullResp c6State = .ok c7Fix
    ∧ validate_response c7Fix c6State = .ok c7Fix :=
  ⟨rfl, rfl, spec_C7_amended c6State nullResp c7Fix rfl rfl⟩

end Thalamus
